import Mathlib

/-!
Verification development for the kvkk-consent-sign-tool repository.

The backend services are embedded shallowly:

* `src/backend/services/hashChainService.js` — append-only hash chain
* `src/backend/services/encryptionService.js` — AES-256-GCM field encryption
* `src/backend/services/storageService.js` — encrypted submission storage and retention
* `src/backend/services/otpService.js` — one-time-passcode issue and verification
* `src/backend/services/timestampService.js` — trusted timestamp with local fallback
* the JWT token service — tokenized downloads
* `src/backend/services/evidenceBundleService.js` — evidence bundle assembly

Cryptographic primitives from the Node `crypto` library are modelled symbolically:
a SHA-256 digest is the formal term of the input it was computed from (a
collision-free idealization), PBKDF2 is an injective key-derivation term, and
the GCM authentication tag is an injective encoding of the authenticated data.
JavaScript `Buffer` values and UTF-8 strings handled by the crypto layer are
modelled as `List Nat` byte sequences; base64 transport encoding (a bijection on
byte content) is elided.  Asynchronous JavaScript methods are modelled as pure
state-passing functions; `await` points inside read-modify-write sequences are
modelled as interleaving points where noted.
-/

namespace KVKK

/-- SHA-256 modelled as a collision-free symbolic digest: the digest of a byte
buffer or of a string is the formal term of that input.  `bytes` models
`crypto.createHash('sha256').update(buffer).digest('hex')` on a Buffer
(`storageService.calculateHash`, `evidenceBundleService.computePdfHash`) and
`str` the same digest of a UTF-8 string (`otpService._hashCode`). -/
inductive Sha where
  | bytes (b : List Nat)
  | str (s : String)
deriving DecidableEq, Repr

/-! ## Hash chain — `src/backend/services/hashChainService.js` -/

/-- The payloads appended to the hash chain by this program: the genesis record
`\x7btype: 'genesis'\x7d` written by `initialize`, the consent-evidence anchor
written by `evidenceBundleService.assembleAndStore`, and arbitrary other JSON
payloads (`append(data)` takes any serializable `data`).  The anchor carries
the submission id, the pdf digest, an optional OTP summary
(recipient, verifiedAt), the notice version and the timestamp string. -/
inductive ChainData where
  | genesis
  | consentEvidence (submissionId : String) (pdfHash : Sha)
      (otp : Option (String × Nat)) (kvkkVersion : String) (ts : String)
  | other (payload : String)
deriving DecidableEq, Repr

/-- A chain hash value.  `computeHash` feeds `String(index)`, `prevHash || ''`
and `JSON.stringify(data)` into one SHA-256; the digest is modelled as the
formal term of the triple, i.e. SHA-256 is collision-free on the inputs this
program hashes.  A `null` previous hash (hashed as the empty string by
`prevHash || ''`) and a linked previous hash give the two constructors. -/
inductive ChainHash where
  | nullPrev (index : Nat) (data : ChainData)
  | linked (index : Nat) (prev : ChainHash) (data : ChainData)
deriving DecidableEq, Repr

/-- `computeHash(index, prevHash, data)` of `hashChainService.js`. -/
def computeHash (index : Nat) (prevHash : Option ChainHash) (data : ChainData) : ChainHash :=
  match prevHash with
  | none => ChainHash.nullPrev index data
  | some h => ChainHash.linked index h data

theorem computeHash_inj {i1 i2 : Nat} {p1 p2 : Option ChainHash} {d1 d2 : ChainData}
    (h : computeHash i1 p1 d1 = computeHash i2 p2 d2) : i1 = i2 ∧ p1 = p2 ∧ d1 = d2 := by
  cases p1 <;> cases p2 <;> simp [computeHash] at h <;> simp_all

/-- One entry of the persisted chain file: `\x7bindex, timestamp, prevHash, data, hash\x7d`. -/
structure ChainEntry where
  index : Nat
  timestamp : String
  prevHash : Option ChainHash
  data : ChainData
  hash : ChainHash
deriving DecidableEq, Repr

/-- The genesis entry written by `initialize` when no chain file exists. -/
def genesisEntry (ts : String) : ChainEntry :=
  { index := 0, timestamp := ts, prevHash := none, data := ChainData.genesis
    hash := computeHash 0 none ChainData.genesis }

/-- `initialize`: the freshly initialized chain file holds exactly the genesis entry. -/
def initializeChain (ts : String) : List ChainEntry :=
  [genesisEntry ts]

/-- JavaScript `v || dflt` on an optional number: `undefined` and `0` are falsy.
Used for `(last?.index || 0)`; note `0 || 0 = 0` coincides with `getD 0`. -/
def jsNumOr (v : Option Nat) (dflt : Nat) : Nat :=
  match v with
  | none => dflt
  | some n => if n = 0 then dflt else n

/-- The entry built by `append(data)` from the current entry list:
`index = (last?.index || 0) + 1`, `prevHash = last?.hash || null`,
`hash = computeHash(index, prevHash, data)`. -/
def appendEntry (entries : List ChainEntry) (ts : String) (d : ChainData) : ChainEntry :=
  let last := entries.getLast?
  let index := jsNumOr (last.map (·.index)) 0 + 1
  let prevHash := last.map (·.hash)
  { index := index, timestamp := ts, prevHash := prevHash, data := d
    hash := computeHash index prevHash d }

/-- `append(data)`: read the full list, push the new entry, write the full list. -/
def append (entries : List ChainEntry) (ts : String) (d : ChainData) : List ChainEntry :=
  entries ++ [appendEntry entries ts d]

/-- Run a sequence of `append` calls (each with its wall-clock timestamp). -/
def appendAll (entries : List ChainEntry) : List (String × ChainData) → List ChainEntry
  | [] => entries
  | (ts, d) :: rest => appendAll (append entries ts d) rest

/-- The chain invariant walked from an expected previous hash and an expected
index: every entry carries the expected contiguous index, links to the expected
previous hash, and stores the hash recomputed from its own declared fields. -/
def chainOk : Option ChainHash → Nat → List ChainEntry → Bool
  | _, _, [] => true
  | prev, idx, e :: rest =>
    decide (e.index = idx) && decide (e.prevHash = prev) &&
      decide (e.hash = computeHash e.index e.prevHash e.data) &&
      chainOk (some e.hash) (idx + 1) rest

/-- The full chain invariant: genesis at index 0 with `prevHash = null`, every
later entry at its predecessor index plus one, linked by `prevHash` to the
predecessor hash, every stored hash recomputable from the declared fields. -/
def chainInvariant (entries : List ChainEntry) : Bool :=
  chainOk none 0 entries

theorem jsNumOr_zero (v : Option Nat) : jsNumOr v 0 = v.getD 0 := by
  cases v with
  | none => rfl
  | some n => by_cases h : n = 0 <;> simp [jsNumOr, h]

theorem chainOk_cons (prev : Option ChainHash) (idx : Nat) (e : ChainEntry)
    (rest : List ChainEntry) :
    chainOk prev idx (e :: rest) = true ↔
      e.index = idx ∧ e.prevHash = prev ∧ e.hash = computeHash e.index e.prevHash e.data ∧
        chainOk (some e.hash) (idx + 1) rest = true := by
  simp [chainOk, and_assoc]

theorem chainOk_append_single (prev : Option ChainHash) (idx : Nat)
    (l : List ChainEntry) (hl : chainOk prev idx l = true) (hne : l ≠ [])
    (ts : String) (d : ChainData) :
    chainOk prev idx (append l ts d) = true := by
  induction l generalizing prev idx with
  | nil => exact absurd rfl hne
  | cons e rest ih =>
    rw [chainOk_cons] at hl
    obtain ⟨hidx, hprev, hhash, hrest⟩ := hl
    cases rest with
    | nil =>
      have hlast : (e :: ([] : List ChainEntry)).getLast? = some e := rfl
      simp only [append, appendEntry, hlast, List.cons_append, List.nil_append,
        Option.map_some]
      rw [chainOk_cons]
      refine ⟨hidx, hprev, hhash, ?_⟩
      rw [chainOk_cons]
      refine ⟨?_, rfl, rfl, rfl⟩
      rw [jsNumOr_zero]
      simp [hidx]
    | cons e2 rest2 =>
      have hlast : (e :: e2 :: rest2).getLast? = (e2 :: rest2).getLast? := by
        simp [List.getLast?]
      have hstep : append (e :: e2 :: rest2) ts d = e :: append (e2 :: rest2) ts d := by
        simp [append, appendEntry, hlast]
      rw [hstep, chainOk_cons]
      exact ⟨hidx, hprev, hhash, ih (some e.hash) (idx + 1) hrest (by simp)⟩

theorem chainOk_appendAll (prev : Option ChainHash) (idx : Nat)
    (l : List ChainEntry) (hl : chainOk prev idx l = true) (hne : l ≠ [])
    (items : List (String × ChainData)) :
    chainOk prev idx (appendAll l items) = true := by
  induction items generalizing l with
  | nil => exact hl
  | cons it rest ih =>
    obtain ⟨ts, d⟩ := it
    exact ih (append l ts d) (chainOk_append_single prev idx l hl hne ts d)
      (by simp [append])

theorem chainInvariant_initialize (ts : String) :
    chainInvariant (initializeChain ts) = true := by
  simp [chainInvariant, initializeChain, genesisEntry, chainOk, computeHash]

/-- Result shape of the spec-described `verify`: `\x7bvalid, brokenAtIndex?\x7d`. -/
structure VerifyResult where
  valid : Bool
  brokenAtIndex : Option Nat
deriving DecidableEq, Repr

/-- Modelled from the spec: `hashChainService.js` implements no verification
operation (only the repository design document sketches a `verifyChain`), so
the walk is taken from the spec sentence "`verify(fromIndex?) ->
\x7bvalid, brokenAtIndex?\x7d` walks the sequence checking both the `prevHash`
linkage and the recomputed `hash` at every step; returns the first index where
either check fails".  `expectedPrev` starts at `null` for the genesis entry and
`pos` counts the position in the sequence. -/
def verifyWalk : Option ChainHash → Nat → List ChainEntry → Option Nat
  | _, _, [] => none
  | expectedPrev, pos, e :: rest =>
    if e.prevHash ≠ expectedPrev then some pos
    else if e.hash ≠ computeHash e.index e.prevHash e.data then some pos
    else verifyWalk (some e.hash) (pos + 1) rest

/-- Modelled from the spec: `verify()` over the whole stored chain — valid when
the walk finds no broken step, otherwise invalid together with the first broken
index. -/
def verify (entries : List ChainEntry) : VerifyResult :=
  match verifyWalk none 0 entries with
  | none => { valid := true, brokenAtIndex := none }
  | some i => { valid := false, brokenAtIndex := some i }

/-- Every stored hash matches its recomputation from the declared fields. -/
def hashesRecomputed (entries : List ChainEntry) : Prop :=
  ∀ e ∈ entries, e.hash = computeHash e.index e.prevHash e.data

/-- The `prevHash` linkage, walked from an expected previous hash. -/
def linkedFrom : Option ChainHash → List ChainEntry → Prop
  | _, [] => True
  | prev, e :: rest => e.prevHash = prev ∧ linkedFrom (some e.hash) rest

theorem verifyWalk_eq_none_iff (l : List ChainEntry) :
    ∀ prev pos, verifyWalk prev pos l = none ↔ hashesRecomputed l ∧ linkedFrom prev l := by
  induction l with
  | nil => intro prev pos; simp [verifyWalk, hashesRecomputed, linkedFrom]
  | cons e rest ih =>
    intro prev pos
    by_cases hp : e.prevHash = prev
    · by_cases hh : e.hash = computeHash e.index e.prevHash e.data
      · have hh2 : e.hash = computeHash e.index prev e.data := by rw [← hp]; exact hh
        rw [show verifyWalk prev pos (e :: rest) = verifyWalk (some e.hash) (pos + 1) rest by
          simp [verifyWalk, hp, hh2]]
        rw [ih (some e.hash) (pos + 1)]
        simp [hashesRecomputed, linkedFrom, hp, hh]
      · have hh2 : ¬e.hash = computeHash e.index prev e.data := by rw [← hp]; exact hh
        rw [show verifyWalk prev pos (e :: rest) = some pos by simp [verifyWalk, hp, hh2]]
        refine iff_of_false (by simp) ?_
        rintro ⟨ha, _⟩
        exact hh (ha e (by simp))
    · rw [show verifyWalk prev pos (e :: rest) = some pos by simp [verifyWalk, hp]]
      refine iff_of_false (by simp) ?_
      rintro ⟨_, hlf⟩
      exact hp hlf.1

theorem linkedFrom_iff (l : List ChainEntry) :
    ∀ prev, linkedFrom prev l ↔
      (∀ e, l.head? = some e → e.prevHash = prev) ∧
        List.Chain' (fun a b => b.prevHash = some a.hash) l := by
  induction l with
  | nil => intro prev; simp [linkedFrom]
  | cons e rest ih =>
    intro prev
    rw [show linkedFrom prev (e :: rest) = (e.prevHash = prev ∧ linkedFrom (some e.hash) rest)
      from rfl]
    rw [ih (some e.hash)]
    constructor
    · rintro ⟨h1, h2, h3⟩
      refine ⟨by simpa using h1, ?_⟩
      cases rest with
      | nil => simp
      | cons b tl => exact List.chain'_cons.mpr ⟨h2 b rfl, h3⟩
    · rintro ⟨h1, h2⟩
      refine ⟨h1 e rfl, ?_, ?_⟩
      · intro b hb
        cases rest with
        | nil => simp at hb
        | cons c tl =>
          obtain rfl : c = b := by simpa using hb
          exact (List.chain'_cons.mp h2).1
      · cases rest with
        | nil => exact List.chain'_nil
        | cons c tl => exact (List.chain'_cons.mp h2).2

/-- A single-field alteration of a chain entry that touches one of the hashed
or linked fields (`index`, `prevHash`, `data`, `hash`) and leaves the other
fields unchanged. -/
def oneHashedFieldAltered (e e2 : ChainEntry) : Prop :=
  (e2.index ≠ e.index ∧ e2.prevHash = e.prevHash ∧ e2.data = e.data ∧ e2.hash = e.hash ∧
      e2.timestamp = e.timestamp) ∨
  (e2.index = e.index ∧ e2.prevHash ≠ e.prevHash ∧ e2.data = e.data ∧ e2.hash = e.hash ∧
      e2.timestamp = e.timestamp) ∨
  (e2.index = e.index ∧ e2.prevHash = e.prevHash ∧ e2.data ≠ e.data ∧ e2.hash = e.hash ∧
      e2.timestamp = e.timestamp) ∨
  (e2.index = e.index ∧ e2.prevHash = e.prevHash ∧ e2.data = e.data ∧ e2.hash ≠ e.hash ∧
      e2.timestamp = e.timestamp)

theorem verifyWalk_set_altered (l : List ChainEntry) :
    ∀ prev idx pos k (hk : k < l.length) e2,
      chainOk prev idx l = true →
      oneHashedFieldAltered (l.get ⟨k, hk⟩) e2 →
      verifyWalk prev pos (l.set k e2) = some (pos + k) := by
  induction l with
  | nil => intro prev idx pos k hk; simp at hk
  | cons e rest ih =>
    intro prev idx pos k hk e2 hok halt
    rw [chainOk_cons] at hok
    obtain ⟨hidx, hprev, hhash, hrest⟩ := hok
    cases k with
    | zero =>
      simp only [List.get] at halt
      rw [show (e :: rest).set 0 e2 = e2 :: rest from rfl]
      rcases halt with ⟨hne, hp, hd, hh, _⟩ | ⟨hi, hne, hd, hh, _⟩ | ⟨hi, hp, hne, hh, _⟩ |
        ⟨hi, hp, hd, hne, _⟩
      · have hpp : e2.prevHash = prev := by rw [hp, hprev]
        have hbad : e2.hash ≠ computeHash e2.index prev e2.data := by
          rw [hh, hd, hhash, hprev]
          intro hcon
          exact hne (computeHash_inj hcon).1.symm
        simp [verifyWalk, hpp, hbad]
      · have hbadp : e2.prevHash ≠ prev := by rw [← hprev]; exact hne
        simp [verifyWalk, hbadp]
      · have hpp : e2.prevHash = prev := by rw [hp, hprev]
        have hbad : e2.hash ≠ computeHash e2.index prev e2.data := by
          rw [hh, hi, hhash, hprev]
          intro hcon
          exact hne (computeHash_inj hcon).2.2.symm
        simp [verifyWalk, hpp, hbad]
      · have hpp : e2.prevHash = prev := by rw [hp, hprev]
        have heq : computeHash e.index prev e.data = e.hash := by rw [hhash, hprev]
        have hbad : e2.hash ≠ computeHash e2.index prev e2.data := by
          rw [hi, hd, heq]
          exact hne
        simp [verifyWalk, hpp, hbad]
    | succ k2 =>
      have hk2 : k2 < rest.length := by simpa using hk
      rw [show (e :: rest).set (k2 + 1) e2 = e :: rest.set k2 e2 from rfl]
      rw [show verifyWalk prev pos (e :: rest.set k2 e2) =
          verifyWalk (some e.hash) (pos + 1) (rest.set k2 e2) by
        simp [verifyWalk, hprev, hhash]]
      have hget : (e :: rest).get ⟨k2 + 1, hk⟩ = rest.get ⟨k2, hk2⟩ := rfl
      rw [hget] at halt
      rw [ih (some e.hash) (idx + 1) (pos + 1) k2 hk2 e2 hrest halt]
      congr 1
      omega

/-- Claim C1 (amended): for every chain, the spec-modelled `verify()` returns
valid exactly when every stored hash equals its recomputation from the declared
`index`, `prevHash` and `data`, the genesis position carries `prevHash = null`,
and every later entry links to the prior entry's hash; and altering any single
field other than `timestamp` of any entry of a well-formed stored chain makes
`verify()` return invalid together with the first broken index.  (The original
claim also covered alterations of the `timestamp` field, refuted by
`claim_C1_counterexample`: `timestamp` is not an input of `computeHash`.) -/
theorem claim_C1_verify_characterization :
    (∀ entries : List ChainEntry,
      (verify entries).valid = true ↔
        hashesRecomputed entries ∧
          (∀ e, entries.head? = some e → e.prevHash = none) ∧
          List.Chain' (fun a b => b.prevHash = some a.hash) entries) ∧
    (∀ (entries : List ChainEntry) (k : Nat) (hk : k < entries.length) (e2 : ChainEntry),
      chainInvariant entries = true →
      oneHashedFieldAltered (entries.get ⟨k, hk⟩) e2 →
      verify (entries.set k e2) = { valid := false, brokenAtIndex := some k }) := by
  constructor
  · intro entries
    have h1 := verifyWalk_eq_none_iff entries none 0
    have h2 := linkedFrom_iff entries none
    unfold verify
    rcases hcase : verifyWalk none 0 entries with _ | i
    · have hx := h1.mp hcase
      exact iff_of_true rfl ⟨hx.1, (h2.mp hx.2).1, (h2.mp hx.2).2⟩
    · refine iff_of_false (by simp) ?_
      rintro ⟨ha, hb, hc⟩
      have hnone : verifyWalk none 0 entries = none := h1.mpr ⟨ha, h2.mpr ⟨hb, hc⟩⟩
      rw [hcase] at hnone
      simp at hnone
  · intro entries k hk e2 hinv halt
    have := verifyWalk_set_altered entries none 0 0 k hk e2 hinv halt
    simp only [Nat.zero_add] at this
    simp [verify, this]

/-- Claim C1 witness: the characterization applied to a concrete two-entry
chain (valid as stored; invalid at position 1 after altering the appended
entry's `index` field). -/
theorem claim_C1_witness :
    (verify (appendAll (initializeChain "t0") [("t1", ChainData.other "x")])).valid = true ∧
    verify ((appendAll (initializeChain "t0") [("t1", ChainData.other "x")]).set 1
        { index := 5, timestamp := "t1",
          prevHash := some (computeHash 0 none ChainData.genesis),
          data := ChainData.other "x",
          hash := computeHash 1 (some (computeHash 0 none ChainData.genesis))
            (ChainData.other "x") }) =
      { valid := false, brokenAtIndex := some 1 } :=
  ⟨(claim_C1_verify_characterization.1
      (appendAll (initializeChain "t0") [("t1", ChainData.other "x")])).mpr
    ⟨by unfold hashesRecomputed; decide,
     by
       intro e he
       have hg : (appendAll (initializeChain "t0") [("t1", ChainData.other "x")]).head? =
           some (genesisEntry "t0") := rfl
       rw [hg] at he
       rw [(Option.some.inj he).symm]
       rfl,
     by
       rw [show appendAll (initializeChain "t0") [("t1", ChainData.other "x")] =
           [genesisEntry "t0",
            appendEntry (initializeChain "t0") "t1" (ChainData.other "x")] from rfl]
       exact List.chain'_pair.mpr rfl⟩,
   claim_C1_verify_characterization.2
     (appendAll (initializeChain "t0") [("t1", ChainData.other "x")]) 1 (by decide)
     { index := 5, timestamp := "t1",
       prevHash := some (computeHash 0 none ChainData.genesis),
       data := ChainData.other "x",
       hash := computeHash 1 (some (computeHash 0 none ChainData.genesis))
         (ChainData.other "x") }
     (by decide) (by unfold oneHashedFieldAltered; decide)⟩

/-- Claim C1 counterexample: altering the `timestamp` field of a stored entry
leaves `verify()` valid, because `computeHash` does not hash the timestamp.
The chain below is the genesis plus one `append`; rewriting the appended
entry's timestamp from `"t1"` to `"t2"` changes the stored chain yet `verify`
still reports valid with no broken index. -/
theorem claim_C1_counterexample :
    (verify ((appendAll (initializeChain "t0") [("t1", ChainData.other "x")]).set 1
        { index := 1, timestamp := "t2",
          prevHash := some (computeHash 0 none ChainData.genesis),
          data := ChainData.other "x",
          hash := computeHash 1 (some (computeHash 0 none ChainData.genesis))
            (ChainData.other "x") })).valid = true ∧
    (appendAll (initializeChain "t0") [("t1", ChainData.other "x")]).set 1
        { index := 1, timestamp := "t2",
          prevHash := some (computeHash 0 none ChainData.genesis),
          data := ChainData.other "x",
          hash := computeHash 1 (some (computeHash 0 none ChainData.genesis))
            (ChainData.other "x") } ≠
      appendAll (initializeChain "t0") [("t1", ChainData.other "x")] := by
  constructor
  · rfl
  · decide

/-- Claim C3: every sequence of `append(data)` calls starting from the freshly
initialized genesis file preserves the chain invariant — genesis has index 0
and `prevHash = null`, every later entry has its predecessor index plus one,
`prevHash` equal to the predecessor hash, and `hash` recomputable from its own
declared `index`, `prevHash` and `data`. -/
theorem claim_C3_append_preserves_invariant (ts : String)
    (items : List (String × ChainData)) :
    chainInvariant (appendAll (initializeChain ts) items) = true := by
  refine chainOk_appendAll none 0 (initializeChain ts) ?_ (by simp [initializeChain]) items
  exact chainInvariant_initialize ts

/-! ### Concurrent appends

`append` performs `await readSecureFile` and later `await writeSecureFile` with
no lock of any kind in the repository; between the two awaits the Node event
loop may run the other concurrent `append`.  Each in-flight `append(data)` call
is therefore a job with two steps: the read step captures the current entry
list as its snapshot, and the write step stores `snapshot ++ [entry computed
from snapshot]` as the new chain file, exactly the body of `append`. -/

/-- Phase of one in-flight `append` call. -/
inductive JobPhase where
  | pending
  | readDone (snapshot : List ChainEntry)
  | finished
deriving DecidableEq, Repr

/-- Shared chain file plus the in-flight `append` jobs (phase, timestamp, data). -/
structure RacyChainState where
  chain : List ChainEntry
  jobs : List (JobPhase × String × ChainData)
deriving DecidableEq, Repr

/-- Advance job `i` by one step: a pending job performs its `readSecureFile`,
a job holding a snapshot performs its `writeSecureFile` of the snapshot plus
its freshly computed entry. -/
def stepJob (s : RacyChainState) (i : Nat) : RacyChainState :=
  match s.jobs.get? i with
  | some (JobPhase.pending, ts, d) =>
      { s with jobs := s.jobs.set i (JobPhase.readDone s.chain, ts, d) }
  | some (JobPhase.readDone snap, ts, d) =>
      { chain := append snap ts d, jobs := s.jobs.set i (JobPhase.finished, ts, d) }
  | _ => s

/-- Run an interleaving schedule: the list names which job steps next. -/
def runSchedule (s : RacyChainState) : List Nat → RacyChainState
  | [] => s
  | i :: rest => runSchedule (stepJob s i) rest

/-- Claim C9 evaluated at the failing interleaving: two concurrent `append`
calls against the fresh genesis chain under the schedule read-read-write-write
leave a chain of only 2 entries — the first append is overwritten and lost —
whereas the claim promises 2 new entries (3 total) for every interleaving.
The serialized schedule is included for contrast: it does gain both entries.
No mutual-exclusion lock exists anywhere in the repository, so this
interleaving is reachable. -/
theorem claim_C9_unsynchronized_append_loses_entry :
    ((runSchedule
        { chain := initializeChain "t0",
          jobs := [(JobPhase.pending, "t1", ChainData.other "a"),
                   (JobPhase.pending, "t2", ChainData.other "b")] }
        [0, 1, 0, 1]).chain.map (·.data) =
      [ChainData.genesis, ChainData.other "b"] ∧
     (runSchedule
        { chain := initializeChain "t0",
          jobs := [(JobPhase.pending, "t1", ChainData.other "a"),
                   (JobPhase.pending, "t2", ChainData.other "b")] }
        [0, 1, 0, 1]).chain.length = 2) ∧
    (runSchedule
        { chain := initializeChain "t0",
          jobs := [(JobPhase.pending, "t1", ChainData.other "a"),
                   (JobPhase.pending, "t2", ChainData.other "b")] }
        [0, 0, 1, 1]).chain.map (·.data) =
      [ChainData.genesis, ChainData.other "a", ChainData.other "b"] := by
  decide

/-! ## Encryption service — `src/backend/services/encryptionService.js`

Byte buffers and the UTF-8 strings fed to the crypto layer are `List Nat`.
PBKDF2 is a symbolic injective key-derivation term; the AES-256-GCM keystream
is a concrete stand-in function of (key, iv, counter); the GCM authentication
tag is an injective length-prefixed encoding of (derived key, iv, AAD,
ciphertext), modelling an ideal unforgeable tag.  Base64 transport encoding of
the blob fields (a bijection on byte content) is elided. -/

/-- JavaScript Buffer contents / UTF-8 string contents. -/
abbrev Bytes := List Nat

/-- Length-prefixed encoding, the building block of the injective tag model. -/
def lp (l : Bytes) : Bytes := l.length :: l

theorem lp_append_inj {a b r s : Bytes} (h : lp a ++ r = lp b ++ s) : a = b ∧ r = s := by
  simp only [lp, List.cons_append, List.cons.injEq] at h
  obtain ⟨hlen, htl⟩ := h
  exact List.append_inj htl hlen

/-- `deriveKey(masterKey, salt, context)`: PBKDF2-SHA256 of the master key over
`salt ++ context`, modelled as a symbolic injective derivation term. -/
inductive DerivedKey where
  | pbkdf2 (masterKey : Bytes) (combinedSalt : Bytes)
deriving DecidableEq, Repr

/-- `deriveKey` of `encryptionService.js`: `combinedSalt = salt ‖ context`. -/
def deriveKey (masterKey salt context : Bytes) : DerivedKey :=
  DerivedKey.pbkdf2 masterKey (salt ++ context)

/-- Injective byte encoding of a derived key. -/
def keyBytes : DerivedKey → Bytes
  | DerivedKey.pbkdf2 m s => lp m ++ lp s

theorem keyBytes_inj {k1 k2 : DerivedKey} (h : keyBytes k1 = keyBytes k2) : k1 = k2 := by
  cases k1 with
  | pbkdf2 m1 s1 =>
    cases k2 with
    | pbkdf2 m2 s2 =>
      simp only [keyBytes] at h
      obtain ⟨hm, hs⟩ := lp_append_inj (by simpa using h)
      simp only [lp, List.cons.injEq] at hs
      simp [hm, hs.2]

/-- The GCM authentication tag: an ideal unforgeable MAC over the derived key,
the IV, the additional authenticated data (the context) and the ciphertext,
modelled as an injective length-prefixed byte encoding. -/
def gcmTag (key : DerivedKey) (iv aad ct : Bytes) : Bytes :=
  lp (keyBytes key) ++ (lp iv ++ (lp aad ++ lp ct))

theorem gcmTag_inj {k1 k2 : DerivedKey} {iv1 iv2 aad1 aad2 ct1 ct2 : Bytes}
    (h : gcmTag k1 iv1 aad1 ct1 = gcmTag k2 iv2 aad2 ct2) :
    k1 = k2 ∧ iv1 = iv2 ∧ aad1 = aad2 ∧ ct1 = ct2 := by
  obtain ⟨hk, h2⟩ := lp_append_inj h
  obtain ⟨hiv, h3⟩ := lp_append_inj h2
  obtain ⟨haad, h4⟩ := lp_append_inj h3
  refine ⟨keyBytes_inj hk, hiv, haad, ?_⟩
  simp only [lp, List.cons.injEq] at h4
  exact h4.2

/-- Concrete stand-in for the AES-256-CTR keystream byte at counter `i`. -/
def ksByte (key : DerivedKey) (iv : Bytes) (i : Nat) : Nat :=
  ((keyBytes key).sum + iv.sum + i) % 256

/-- Keystream of length `n`. -/
def gcmKeystream (key : DerivedKey) (iv : Bytes) (n : Nat) : Bytes :=
  (List.range n).map (ksByte key iv)

/-- Byte-wise XOR (CTR-mode combination). -/
def xorBytes (a b : Bytes) : Bytes :=
  List.zipWith (fun x y => x ^^^ y) a b

/-- GCM encryption body of `cipher.update`/`cipher.final`. -/
def gcmEncrypt (key : DerivedKey) (iv pt : Bytes) : Bytes :=
  xorBytes pt (gcmKeystream key iv pt.length)

/-- GCM decryption body of `decipher.update`/`decipher.final`. -/
def gcmDecrypt (key : DerivedKey) (iv ct : Bytes) : Bytes :=
  xorBytes ct (gcmKeystream key iv ct.length)

theorem xorBytes_xorBytes_cancel (pt : Bytes) :
    ∀ ks : Bytes, pt.length ≤ ks.length → xorBytes (xorBytes pt ks) ks = pt := by
  induction pt with
  | nil => intro ks _; simp [xorBytes]
  | cons a tl ih =>
    intro ks hks
    cases ks with
    | nil => simp at hks
    | cons b ktl =>
      have : a ^^^ b ^^^ b = a := by
        rw [Nat.xor_assoc, Nat.xor_self, Nat.xor_zero]
      simpa [xorBytes, this] using ih ktl (by simpa using hks)

theorem gcmEncrypt_length (key : DerivedKey) (iv pt : Bytes) :
    (gcmEncrypt key iv pt).length = pt.length := by
  simp [gcmEncrypt, xorBytes, gcmKeystream]

theorem gcmDecrypt_gcmEncrypt (key : DerivedKey) (iv pt : Bytes) :
    gcmDecrypt key iv (gcmEncrypt key iv pt) = pt := by
  rw [gcmDecrypt, gcmEncrypt_length]
  apply xorBytes_xorBytes_cancel
  simp [gcmKeystream]

/-- The object returned by `encrypt`: ciphertext, salt, iv, tag, algorithm,
context and creation timestamp. -/
structure EncryptedBlob where
  encrypted : Bytes
  salt : Bytes
  iv : Bytes
  tag : Bytes
  algorithm : String
  context : Bytes
  timestamp : String
deriving DecidableEq, Repr

/-- The blob built by a successful `encrypt(plaintext, context)` run with the
given random salt and IV (`crypto.randomBytes` outputs passed explicitly). -/
def encBlob (masterKey salt iv plaintext context : Bytes) (now : String) : EncryptedBlob :=
  { encrypted := gcmEncrypt (deriveKey masterKey salt context) iv plaintext,
    salt := salt, iv := iv,
    tag := gcmTag (deriveKey masterKey salt context) iv context
      (gcmEncrypt (deriveKey masterKey salt context) iv plaintext),
    algorithm := "aes-256-gcm", context := context, timestamp := now }

/-- `encrypt(plaintext, context)`: rejects falsy (empty) plaintext, otherwise
derives the key, encrypts and tags; the catch block rewraps every failure as
`Failed to encrypt data`. -/
def encrypt (masterKey salt iv plaintext context : Bytes) (now : String) :
    Except String EncryptedBlob :=
  if plaintext = [] then Except.error "Failed to encrypt data"
  else Except.ok (encBlob masterKey salt iv plaintext context now)

/-- `decrypt(encryptedData)`: checks the falsy-field guard (`!encrypted || !salt
|| !iv || !tag`), re-derives the key from the blob salt and blob context, checks
the authentication tag, and decrypts; the catch block rewraps every failure
(including `decipher.final()` authentication errors) as `Failed to decrypt
data`. -/
def decrypt (masterKey : Bytes) (blob : EncryptedBlob) : Except String Bytes :=
  if blob.encrypted = [] ∨ blob.salt = [] ∨ blob.iv = [] ∨ blob.tag = [] then
    Except.error "Failed to decrypt data"
  else if blob.algorithm ≠ "aes-256-gcm" then
    Except.error "Failed to decrypt data"
  else
    let key := deriveKey masterKey blob.salt blob.context
    if gcmTag key blob.iv blob.context blob.encrypted = blob.tag then
      Except.ok (gcmDecrypt key blob.iv blob.encrypted)
    else
      Except.error "Failed to decrypt data"

/-- Flip bit `j` of byte `i` of a buffer. -/
def flipBit (l : Bytes) (i j : Nat) : Bytes :=
  l.set i (l.getD i 0 ^^^ 2 ^ j)

theorem xor_pow_ne_self (a j : Nat) : a ^^^ 2 ^ j ≠ a := by
  intro h
  have h2 := congrArg (fun x => a ^^^ x) h
  simp only [← Nat.xor_assoc, Nat.xor_self, Nat.zero_xor] at h2
  exact (Nat.two_pow_pos j).ne' h2

theorem flipBit_ne (l : Bytes) (i j : Nat) (h : i < l.length) : flipBit l i j ≠ l := by
  intro hcon
  have hq := congrArg (fun x : Bytes => x[i]?) hcon
  simp only [flipBit] at hq
  rw [List.getElem?_set_eq_of_lt _ h, List.getElem?_eq_getElem h] at hq
  have hval : l.getD i 0 ^^^ 2 ^ j = l[i] := Option.some.inj hq
  have hd : l.getD i 0 = l[i] := by
    rw [List.getD_eq_getElem?_getD, List.getElem?_eq_getElem h]
    rfl
  rw [hd] at hval
  exact xor_pow_ne_self (l[i]) j hval

theorem flipBit_length (l : Bytes) (i j : Nat) : (flipBit l i j).length = l.length := by
  simp [flipBit]

theorem gcmEncrypt_ne_nil (key : DerivedKey) (iv pt : Bytes) (h : pt ≠ []) :
    gcmEncrypt key iv pt ≠ [] := by
  intro hcon
  apply h
  have hlen := congrArg List.length hcon
  rw [gcmEncrypt_length] at hlen
  exact List.length_eq_zero.mp (by simpa using hlen)

theorem gcmTag_ne_nil (key : DerivedKey) (iv aad ct : Bytes) : gcmTag key iv aad ct ≠ [] := by
  simp [gcmTag, lp]

theorem flipBit_ne_nil (l : Bytes) (i j : Nat) (h : l ≠ []) : flipBit l i j ≠ [] := by
  intro hcon
  apply h
  have hlen := congrArg List.length hcon
  rw [flipBit_length] at hlen
  exact List.length_eq_zero.mp (by simpa using hlen)

/-- Claim C2: for every non-empty plaintext and every context, decryption of
the encryption returns the plaintext; and decrypting under a different
context, or after flipping any single bit of the ciphertext, the IV, or the
authentication tag, yields the explicit error `Failed to decrypt data` rather
than any value.  The random salt and IV are arbitrary non-empty buffers
(`randomBytes(32)` and `randomBytes(16)` in the source). -/
theorem claim_C2_aead_roundtrip_and_tamper_detection :
    ∀ (masterKey salt iv plaintext context : Bytes) (now : String),
      plaintext ≠ [] → salt ≠ [] → iv ≠ [] →
      encrypt masterKey salt iv plaintext context now =
          Except.ok (encBlob masterKey salt iv plaintext context now) ∧
      decrypt masterKey (encBlob masterKey salt iv plaintext context now) =
          Except.ok plaintext ∧
      (∀ context2, context2 ≠ context →
        decrypt masterKey
            { encBlob masterKey salt iv plaintext context now with context := context2 } =
          Except.error "Failed to decrypt data") ∧
      (∀ i j, i < (encBlob masterKey salt iv plaintext context now).encrypted.length →
        decrypt masterKey
            { encBlob masterKey salt iv plaintext context now with
              encrypted :=
                flipBit (encBlob masterKey salt iv plaintext context now).encrypted i j } =
          Except.error "Failed to decrypt data") ∧
      (∀ i j, i < iv.length →
        decrypt masterKey
            { encBlob masterKey salt iv plaintext context now with iv := flipBit iv i j } =
          Except.error "Failed to decrypt data") ∧
      (∀ i j, i < (encBlob masterKey salt iv plaintext context now).tag.length →
        decrypt masterKey
            { encBlob masterKey salt iv plaintext context now with
              tag := flipBit (encBlob masterKey salt iv plaintext context now).tag i j } =
          Except.error "Failed to decrypt data") := by
  intro masterKey salt iv plaintext context now hpt hsalt hiv
  have hct : gcmEncrypt (deriveKey masterKey salt context) iv plaintext ≠ [] :=
    gcmEncrypt_ne_nil _ _ _ hpt
  refine ⟨by simp [encrypt, hpt], ?_, ?_, ?_, ?_, ?_⟩
  · simp only [decrypt, encBlob]
    rw [if_neg (by simp [hct, hsalt, hiv, gcmTag_ne_nil]), if_neg (by simp)]
    simp [gcmDecrypt_gcmEncrypt]
  · intro context2 hne
    simp only [decrypt, encBlob]
    rw [if_neg (by simp [hct, hsalt, hiv, gcmTag_ne_nil]), if_neg (by simp),
      if_neg (fun hcon => hne (gcmTag_inj hcon).2.2.1)]
  · intro i j hi
    simp only [encBlob] at hi
    simp only [decrypt, encBlob]
    rw [if_neg (by simp [flipBit_ne_nil _ i j hct, hsalt, hiv, gcmTag_ne_nil]),
      if_neg (by simp),
      if_neg (fun hcon =>
        flipBit_ne (gcmEncrypt (deriveKey masterKey salt context) iv plaintext) i j hi
          (gcmTag_inj hcon).2.2.2)]
  · intro i j hi
    simp only [decrypt, encBlob]
    rw [if_neg (by simp [hct, hsalt, flipBit_ne_nil iv i j hiv, gcmTag_ne_nil]),
      if_neg (by simp),
      if_neg (fun hcon => flipBit_ne iv i j hi (gcmTag_inj hcon).2.1)]
  · intro i j hi
    simp only [encBlob] at hi
    simp only [decrypt, encBlob]
    rw [if_neg (by
        simp [hct, hsalt, hiv]
        exact flipBit_ne_nil _ i j (gcmTag_ne_nil _ _ _ _)),
      if_neg (by simp),
      if_neg (fun hcon => flipBit_ne _ i j hi hcon.symm)]

/-- Claim C2 witness: the round trip, a changed context and a flipped tag bit
evaluated at concrete bytes. -/
theorem claim_C2_witness :
    ([104, 105] : Bytes) ≠ [] ∧
    decrypt [7] (encBlob [7] [1, 2] [3] [104, 105] [9] "t") = Except.ok [104, 105] ∧
    decrypt [7] { encBlob [7] [1, 2] [3] [104, 105] [9] "t" with context := [8] } =
      Except.error "Failed to decrypt data" ∧
    decrypt [7] { encBlob [7] [1, 2] [3] [104, 105] [9] "t" with
        tag := flipBit (encBlob [7] [1, 2] [3] [104, 105] [9] "t").tag 0 0 } =
      Except.error "Failed to decrypt data" :=
  ⟨by decide,
   (claim_C2_aead_roundtrip_and_tamper_detection [7] [1, 2] [3] [104, 105] [9] "t"
     (by decide) (by decide) (by decide)).2.1,
   (claim_C2_aead_roundtrip_and_tamper_detection [7] [1, 2] [3] [104, 105] [9] "t"
     (by decide) (by decide) (by decide)).2.2.1 [8] (by decide),
   (claim_C2_aead_roundtrip_and_tamper_detection [7] [1, 2] [3] [104, 105] [9] "t"
     (by decide) (by decide) (by decide)).2.2.2.2.2 0 0 (by decide)⟩

/-! ## Association-list maps

Both the filesystem directories (one file per key) and the in-memory
JavaScript `Map`s are modelled as association lists with unique keys; `mremove`
removes every binding of a key (one file per path), `minsert` overwrites. -/

/-- First binding of a key, the lookup of a file or of a `Map` entry. -/
def mlookup {α : Type} (k : String) : List (String × α) → Option α
  | [] => none
  | (k2, v) :: rest => if k2 = k then some v else mlookup k rest

/-- Remove a key (file unlink / `Map.delete`). -/
def mremove {α : Type} (k : String) (m : List (String × α)) : List (String × α) :=
  m.filter (fun p => p.1 ≠ k)

/-- Overwrite a key (file write / `Map.set`). -/
def minsert {α : Type} (k : String) (v : α) (m : List (String × α)) : List (String × α) :=
  (k, v) :: mremove k m

theorem mlookup_mremove_self {α : Type} (k : String) (m : List (String × α)) :
    mlookup k (mremove k m) = none := by
  induction m with
  | nil => rfl
  | cons p rest ih =>
    by_cases h : p.1 = k
    · simpa [mremove, h] using ih
    · simpa [mremove, mlookup, h] using ih

theorem mlookup_mremove_ne {α : Type} (k k2 : String) (m : List (String × α)) (h : k2 ≠ k) :
    mlookup k (mremove k2 m) = mlookup k m := by
  induction m with
  | nil => rfl
  | cons p rest ih =>
    by_cases hp : p.1 = k2
    · have hpk : p.1 ≠ k := by rw [hp]; exact h
      rw [show mremove k2 (p :: rest) = mremove k2 rest by simp [mremove, hp]]
      rw [ih, show mlookup k (p :: rest) = mlookup k rest by simp [mlookup, hpk]]
    · rw [show mremove k2 (p :: rest) = p :: mremove k2 rest by simp [mremove, hp]]
      by_cases hk : p.1 = k
      · rw [show mlookup k (p :: mremove k2 rest) = some p.2 by simp [mlookup, hk],
          show mlookup k (p :: rest) = some p.2 by simp [mlookup, hk]]
      · rw [show mlookup k (p :: mremove k2 rest) = mlookup k (mremove k2 rest) by
            simp [mlookup, hk]]
        rw [ih, show mlookup k (p :: rest) = mlookup k rest by simp [mlookup, hk]]

theorem mlookup_minsert_self {α : Type} (k : String) (v : α) (m : List (String × α)) :
    mlookup k (minsert k v m) = some v := by
  simp [minsert, mlookup]

theorem mlookup_mremove_none {α : Type} (k k2 : String) (m : List (String × α))
    (h : mlookup k m = none) : mlookup k (mremove k2 m) = none := by
  by_cases hk : k2 = k
  · rw [hk]; exact mlookup_mremove_self k m
  · rw [mlookup_mremove_ne k k2 m hk]; exact h

theorem mlookup_mem {α : Type} (k : String) (v : α) (m : List (String × α))
    (h : mlookup k m = some v) : (k, v) ∈ m := by
  induction m with
  | nil => simp [mlookup] at h
  | cons p rest ih =>
    by_cases hp : p.1 = k
    · simp only [mlookup, hp, if_pos] at h
      obtain ⟨a, b⟩ := p
      obtain rfl : a = k := hp
      obtain rfl : b = v := Option.some.inj h
      exact List.mem_cons_self _ _
    · have h2 : mlookup k rest = some v := by simpa [mlookup, hp] using h
      exact List.mem_cons_of_mem p (ih h2)

/-! ## Storage and retention — `storageService.js`

Timestamps are milliseconds since the epoch.  The encrypted payloads written
to the `submissions` and `pdfs` files are opaque here (their encryption and
decryption are the subject of the encryption section); the `metadata` file
carries the fields the retention logic reads.  Calendar-day arithmetic of
`calculateExpiryDate` (`setDate(getDate() + days)`) is modelled as fixed-length
days. -/

/-- `calculateHash(buffer)`: SHA-256 hex digest of the artifact bytes. -/
def calculateHash (buffer : Bytes) : Sha := Sha.bytes buffer

def msPerDay : Nat := 86400000

/-- `calculateExpiryDate(createdAt)`: creation time plus the retention days. -/
def calculateExpiryDate (createdAt retentionDays : Nat) : Nat :=
  createdAt + retentionDays * msPerDay

/-- `isExpired(expiresAt)`: `new Date() > new Date(expiresAt)`. -/
def isExpired (now expiresAt : Nat) : Bool :=
  decide (expiresAt < now)

/-- Hex digit test for the UUID validation RegExp character classes. -/
def isHexChar (c : Char) : Bool :=
  c.isDigit || ('a' ≤ c && c ≤ 'f') || ('A' ≤ c && c ≤ 'F')

/-- `isValidUUID(uuid)`: the version-4 UUID RegExp
`8 hex, dash, 4 hex, dash, '4' + 3 hex, dash, variant + 3 hex, dash, 12 hex`,
case-insensitive. -/
def isValidUUID (s : String) : Bool :=
  let cs := s.data
  decide (cs.length = 36) &&
    (List.range 36).all fun i =>
      match cs.get? i with
      | none => false
      | some c =>
        if i = 8 ∨ i = 13 ∨ i = 18 ∨ i = 23 then decide (c = '-')
        else if i = 14 then decide (c = '4')
        else if i = 19 then decide (c ∈ ['8', '9', 'a', 'b', 'A', 'B'])
        else isHexChar c

/-- Retention block of the persisted metadata. -/
structure Retention where
  createdAt : Nat
  expiresAt : Nat
  retentionDays : Nat
deriving DecidableEq, Repr

/-- The `<id>.meta` metadata unit persisted by `storeSubmission`. -/
structure SubMeta where
  id : String
  timestamp : Nat
  size : Nat
  hash : Sha
  retention : Retention
deriving DecidableEq, Repr

/-- The three persisted directories keyed by submission id, plus the
`<id>.evidence` files written by the evidence bundle service. -/
structure StorageState where
  submissions : List (String × String)
  pdfs : List (String × Bytes)
  metadata : List (String × SubMeta)
  evidence : List (String × String)
deriving DecidableEq, Repr

/-- `storeSubmission(formData, pdfBuffer)`: persist the encrypted form data,
the encrypted artifact and the metadata as three separable units; the metadata
hash is `calculateHash(pdfBuffer)` and expiry is creation plus retention. -/
def storeSubmission (st : StorageState) (submissionId : String) (formDataEnc : String)
    (pdfBuffer : Bytes) (now retentionDays : Nat) : StorageState × SubMeta :=
  let meta : SubMeta :=
    { id := submissionId, timestamp := now, size := pdfBuffer.length,
      hash := calculateHash pdfBuffer,
      retention :=
        { createdAt := now, expiresAt := calculateExpiryDate now retentionDays,
          retentionDays := retentionDays } }
  ({ submissions := minsert submissionId formDataEnc st.submissions,
     pdfs := minsert submissionId pdfBuffer st.pdfs,
     metadata := minsert submissionId meta st.metadata,
     evidence := st.evidence }, meta)

/-- `getSubmissionMetadata`: read the `<id>.meta` file, `null` when absent. -/
def getSubmissionMetadata (st : StorageState) (id : String) : Option SubMeta :=
  mlookup id st.metadata

/-- Successful result of `retrieveSubmission`. -/
structure RetrieveOk where
  submissionId : String
  formData : String
  pdf : Bytes
  metadata : SubMeta
deriving DecidableEq, Repr

/-- The try-block body of `retrieveSubmission(submissionId)` with its internal
error messages: UUID validation, metadata presence, the expiry gate (checked
while the stored units may still exist), then the reads of the two encrypted
units. -/
def retrieveSubmissionSteps (st : StorageState) (now : Nat) (id : String) :
    Except String RetrieveOk :=
  if ¬ isValidUUID id then Except.error "Invalid submission ID format"
  else
    match getSubmissionMetadata st id with
    | none => Except.error "Submission not found"
    | some md =>
      if isExpired now md.retention.expiresAt then Except.error "Submission has expired"
      else
        match mlookup id st.submissions with
        | none => Except.error "ENOENT submissions unit"
        | some formData =>
          match mlookup id st.pdfs with
          | none => Except.error "ENOENT pdf unit"
          | some pdf =>
            Except.ok { submissionId := id, formData := formData, pdf := pdf, metadata := md }

/-- `retrieveSubmission(submissionId)`: the catch block rewraps every internal
failure — not-found and expired alike — as the one generic error. -/
def retrieveSubmission (st : StorageState) (now : Nat) (id : String) :
    Except String RetrieveOk :=
  match retrieveSubmissionSteps st now id with
  | Except.ok r => Except.ok r
  | Except.error _ => Except.error "Failed to retrieve submission"

/-- `deleteSubmission(submissionId)`: validate the id, then unlink the three
persisted units (secure multi-pass overwrite before unlink elided — the final
state is the removal). -/
def deleteSubmission (st : StorageState) (id : String) : Except String StorageState :=
  if ¬ isValidUUID id then Except.error "Failed to delete submission"
  else
    Except.ok
      { submissions := mremove id st.submissions, pdfs := mremove id st.pdfs,
        metadata := mremove id st.metadata, evidence := st.evidence }

/-- One iteration of the cleanup loop: delete, counting successes and errors. -/
def cleanupStep (acc : StorageState × Nat × Nat) (id : String) : StorageState × Nat × Nat :=
  match deleteSubmission acc.1 id with
  | Except.ok st2 => (st2, acc.2.1 + 1, acc.2.2)
  | Except.error _ => (acc.1, acc.2.1, acc.2.2 + 1)

/-- `cleanupExpiredSubmissions()`: list the metadata units, keep the expired
ones, delete each (errors collected, not thrown).  The sort of
`listSubmissions` only changes the iteration order of independent deletions
and is elided.  Returns the state, the deleted count and the error count. -/
def cleanupExpiredSubmissions (st : StorageState) (now : Nat) : StorageState × Nat × Nat :=
  let expired := (st.metadata.filter fun p => isExpired now p.2.retention.expiresAt).map (·.1)
  expired.foldl cleanupStep (st, 0, 0)

theorem cleanupStep_metadata_none (acc : StorageState × Nat × Nat) (id id2 : String)
    (h : mlookup id acc.1.metadata = none) :
    mlookup id (cleanupStep acc id2).1.metadata = none := by
  unfold cleanupStep deleteSubmission
  by_cases hv : isValidUUID id2
  · simp only [hv, not_true_eq_false, if_false]
    exact mlookup_mremove_none id id2 _ h
  · simp only [hv, not_false_eq_true, if_true]
    exact h

theorem cleanup_fold_metadata_none (sid : String) (ids : List String) :
    ∀ acc : StorageState × Nat × Nat, mlookup sid acc.1.metadata = none →
      mlookup sid (ids.foldl cleanupStep acc).1.metadata = none := by
  induction ids with
  | nil => intro acc h; exact h
  | cons id2 rest ih =>
    intro acc h
    exact ih (cleanupStep acc id2) (cleanupStep_metadata_none acc sid id2 h)

theorem cleanup_fold_removes (sid : String) (ids : List String) :
    ∀ acc : StorageState × Nat × Nat, isValidUUID sid = true → sid ∈ ids →
      mlookup sid (ids.foldl cleanupStep acc).1.metadata = none := by
  induction ids with
  | nil => intro acc _ hmem; simp at hmem
  | cons id2 rest ih =>
    intro acc hv hmem
    by_cases heq : id2 = sid
    · subst heq
      have hdel : mlookup id2 (cleanupStep acc id2).1.metadata = none := by
        unfold cleanupStep deleteSubmission
        simp only [hv, not_true_eq_false, if_false]
        exact mlookup_mremove_self id2 _
      exact cleanup_fold_metadata_none id2 rest (cleanupStep acc id2) hdel
    · rcases List.mem_cons.mp hmem with hcon | hrest
      · exact absurd hcon.symm heq
      · exact ih (cleanupStep acc id2) hv hrest

/-- Claim C5 (amended): retrieving an expired submission fails, and after
`cleanupExpiredSubmissions()` has deleted it retrieving fails again, but the
expired/not-found distinction exists only in the internal errors before the
catch-all wrapper: externally both cases surface the identical generic error
`Failed to retrieve submission`, so the surfaced expired error is not distinct
from the surfaced not-found error (refuted as originally stated by
`claim_C5_counterexample`). -/
theorem claim_C5_expiry_cleanup_amended :
    ∀ (st : StorageState) (now : Nat) (sid : String) (md : SubMeta),
      isValidUUID sid = true →
      mlookup sid st.metadata = some md →
      isExpired now md.retention.expiresAt = true →
      (mlookup sid st.pdfs).isSome = true →
      retrieveSubmissionSteps st now sid = Except.error "Submission has expired" ∧
      retrieveSubmission st now sid = Except.error "Failed to retrieve submission" ∧
      (∀ sid2, isValidUUID sid2 = true → mlookup sid2 st.metadata = none →
        retrieveSubmissionSteps st now sid2 = Except.error "Submission not found" ∧
        retrieveSubmission st now sid2 = Except.error "Failed to retrieve submission") ∧
      mlookup sid (cleanupExpiredSubmissions st now).1.metadata = none ∧
      retrieveSubmissionSteps (cleanupExpiredSubmissions st now).1 now sid =
        Except.error "Submission not found" ∧
      retrieveSubmission (cleanupExpiredSubmissions st now).1 now sid =
        Except.error "Failed to retrieve submission" := by
  intro st now sid md hv hmd hexp _hpdf
  have hsteps : retrieveSubmissionSteps st now sid = Except.error "Submission has expired" := by
    simp [retrieveSubmissionSteps, getSubmissionMetadata, hv, hmd, hexp]
  have hclean : mlookup sid (cleanupExpiredSubmissions st now).1.metadata = none := by
    unfold cleanupExpiredSubmissions
    apply cleanup_fold_removes sid _ _ hv
    refine List.mem_map.mpr ⟨(sid, md), ?_, rfl⟩
    exact List.mem_filter.mpr ⟨mlookup_mem sid md st.metadata hmd, by simpa using hexp⟩
  have hsteps2 : retrieveSubmissionSteps (cleanupExpiredSubmissions st now).1 now sid =
      Except.error "Submission not found" := by
    simp [retrieveSubmissionSteps, getSubmissionMetadata, hv, hclean]
  refine ⟨hsteps, by simp [retrieveSubmission, hsteps], ?_, hclean, hsteps2,
    by simp [retrieveSubmission, hsteps2]⟩
  intro sid2 hv2 hnone
  have h2 : retrieveSubmissionSteps st now sid2 = Except.error "Submission not found" := by
    simp [retrieveSubmissionSteps, getSubmissionMetadata, hv2, hnone]
  exact ⟨h2, by simp [retrieveSubmission, h2]⟩

/-- Claim C5 counterexample: with an expired but still-present submission, the
error surfaced for the expired id is byte-for-byte the same generic error as
for an id that was never stored — the surfaced `ExpiredError` is not distinct
from the surfaced not-found error, contrary to the claim. -/
theorem claim_C5_counterexample :
    let stx : StorageState :=
      { submissions := [("11111111-1111-4111-8111-111111111111", "form")],
        pdfs := [("11111111-1111-4111-8111-111111111111", [1, 2, 3])],
        metadata := [("11111111-1111-4111-8111-111111111111",
          { id := "11111111-1111-4111-8111-111111111111", timestamp := 50, size := 3,
            hash := Sha.bytes [1, 2, 3],
            retention := { createdAt := 50, expiresAt := 100, retentionDays := 30 } })],
        evidence := [] }
    retrieveSubmission stx 200 "11111111-1111-4111-8111-111111111111" =
        Except.error "Failed to retrieve submission" ∧
      retrieveSubmission stx 200 "22222222-2222-4222-8222-222222222222" =
        Except.error "Failed to retrieve submission" ∧
      retrieveSubmission stx 200 "11111111-1111-4111-8111-111111111111" =
        retrieveSubmission stx 200 "22222222-2222-4222-8222-222222222222" ∧
      (mlookup "11111111-1111-4111-8111-111111111111" stx.pdfs).isSome = true := by
  exact ⟨rfl, rfl, rfl, rfl⟩

/-- Claim C5 witness: the amended theorem applied at a concrete expired
submission. -/
theorem claim_C5_witness :
    retrieveSubmissionSteps
        { submissions := [("11111111-1111-4111-8111-111111111111", "form")],
          pdfs := [("11111111-1111-4111-8111-111111111111", [1, 2, 3])],
          metadata := [("11111111-1111-4111-8111-111111111111",
            { id := "11111111-1111-4111-8111-111111111111", timestamp := 50, size := 3,
              hash := Sha.bytes [1, 2, 3],
              retention := { createdAt := 50, expiresAt := 100, retentionDays := 30 } })],
          evidence := [] } 200 "11111111-1111-4111-8111-111111111111" =
      Except.error "Submission has expired" ∧
    mlookup "11111111-1111-4111-8111-111111111111"
        (cleanupExpiredSubmissions
          { submissions := [("11111111-1111-4111-8111-111111111111", "form")],
            pdfs := [("11111111-1111-4111-8111-111111111111", [1, 2, 3])],
            metadata := [("11111111-1111-4111-8111-111111111111",
              { id := "11111111-1111-4111-8111-111111111111", timestamp := 50, size := 3,
                hash := Sha.bytes [1, 2, 3],
                retention := { createdAt := 50, expiresAt := 100, retentionDays := 30 } })],
            evidence := [] } 200).1.metadata = none :=
  ⟨(claim_C5_expiry_cleanup_amended
      { submissions := [("11111111-1111-4111-8111-111111111111", "form")],
        pdfs := [("11111111-1111-4111-8111-111111111111", [1, 2, 3])],
        metadata := [("11111111-1111-4111-8111-111111111111",
          { id := "11111111-1111-4111-8111-111111111111", timestamp := 50, size := 3,
            hash := Sha.bytes [1, 2, 3],
            retention := { createdAt := 50, expiresAt := 100, retentionDays := 30 } })],
        evidence := [] } 200 "11111111-1111-4111-8111-111111111111"
      { id := "11111111-1111-4111-8111-111111111111", timestamp := 50, size := 3,
        hash := Sha.bytes [1, 2, 3],
        retention := { createdAt := 50, expiresAt := 100, retentionDays := 30 } }
      rfl rfl rfl rfl).1,
   (claim_C5_expiry_cleanup_amended
      { submissions := [("11111111-1111-4111-8111-111111111111", "form")],
        pdfs := [("11111111-1111-4111-8111-111111111111", [1, 2, 3])],
        metadata := [("11111111-1111-4111-8111-111111111111",
          { id := "11111111-1111-4111-8111-111111111111", timestamp := 50, size := 3,
            hash := Sha.bytes [1, 2, 3],
            retention := { createdAt := 50, expiresAt := 100, retentionDays := 30 } })],
        evidence := [] } 200 "11111111-1111-4111-8111-111111111111"
      { id := "11111111-1111-4111-8111-111111111111", timestamp := 50, size := 3,
        hash := Sha.bytes [1, 2, 3],
        retention := { createdAt := 50, expiresAt := 100, retentionDays := 30 } }
      rfl rfl rfl rfl).2.2.2.1⟩

/-! ## OTP service — `src/backend/services/otpService.js`

The per-recipient challenge store is the in-memory `Map`; times are epoch
milliseconds.  Only the hash of the code is stored (`_hashCode` = SHA-256 of
the code string, symbolic `Sha.str`). -/

/-- A stored OTP challenge (`this.store` value). -/
structure OTPEntry where
  id : String
  codeHash : Sha
  attempts : Nat
  maxAttempts : Nat
  createdAt : Nat
  expiresAt : Nat
  recipient : String
deriving DecidableEq, Repr

/-- The verification record returned on success. -/
structure OTPVerification where
  id : String
  recipient : String
  verifiedAt : Nat
  createdAt : Nat
deriving DecidableEq, Repr

/-- The discriminated result of `verifyOTP` (`success`/`reason` shape). -/
inductive OTPResult where
  | notFound
  | expired
  | attemptsExceeded
  | invalid (attemptsLeft : Nat)
  | success (verification : OTPVerification)
deriving DecidableEq, Repr

/-- `_hashCode(code)`. -/
def hashCode (code : String) : Sha := Sha.str code

/-- `requestOTP(recipient)`: store a fresh challenge for the recipient
(replacing any prior one), `attempts = 0`, expiry `now + ttl` minutes.  The
generated code and ids are passed explicitly. -/
def requestOTP (store : List (String × OTPEntry)) (recipient code challengeId : String)
    (now ttlMinutes maxAttempts : Nat) : List (String × OTPEntry) × OTPEntry :=
  let entry : OTPEntry :=
    { id := challengeId, codeHash := hashCode code, attempts := 0,
      maxAttempts := maxAttempts, createdAt := now,
      expiresAt := now + ttlMinutes * 60 * 1000, recipient := recipient }
  (minsert recipient entry store, entry)

/-- `verifyOTP(recipient, code)`: not-found, expiry (deletes), exhausted
attempts (deletes), otherwise increment `attempts` in place, compare hashes;
mismatch keeps the challenge and reports attempts remaining, match deletes the
challenge and returns the verification record. -/
def verifyOTP (store : List (String × OTPEntry)) (now : Nat) (recipient code : String)
    (verificationId : String) : OTPResult × List (String × OTPEntry) :=
  match mlookup recipient store with
  | none => (OTPResult.notFound, store)
  | some e =>
    if e.expiresAt < now then (OTPResult.expired, mremove recipient store)
    else if e.maxAttempts ≤ e.attempts then (OTPResult.attemptsExceeded, mremove recipient store)
    else
      if hashCode code ≠ e.codeHash then
        (OTPResult.invalid (e.maxAttempts - (e.attempts + 1)),
         minsert recipient { e with attempts := e.attempts + 1 } store)
      else
        (OTPResult.success
          { id := verificationId, recipient := recipient, verifiedAt := now,
            createdAt := e.createdAt },
         mremove recipient store)

theorem verifyOTP_wrong (store : List (String × OTPEntry)) (now : Nat)
    (recipient code vid : String) (e : OTPEntry)
    (hl : mlookup recipient store = some e) (hexp : ¬ e.expiresAt < now)
    (hatt : e.attempts < e.maxAttempts) (hcode : hashCode code ≠ e.codeHash) :
    verifyOTP store now recipient code vid =
      (OTPResult.invalid (e.maxAttempts - (e.attempts + 1)),
       minsert recipient { e with attempts := e.attempts + 1 } store) := by
  simp [verifyOTP, hl, hexp, Nat.not_le.mpr hatt, hcode]

theorem verifyOTP_exceeded (store : List (String × OTPEntry)) (now : Nat)
    (recipient code vid : String) (e : OTPEntry)
    (hl : mlookup recipient store = some e) (hexp : ¬ e.expiresAt < now)
    (hatt : e.maxAttempts ≤ e.attempts) :
    verifyOTP store now recipient code vid =
      (OTPResult.attemptsExceeded, mremove recipient store) := by
  simp [verifyOTP, hl, hexp, hatt]

theorem verifyOTP_correct (store : List (String × OTPEntry)) (now : Nat)
    (recipient code vid : String) (e : OTPEntry)
    (hl : mlookup recipient store = some e) (hexp : ¬ e.expiresAt < now)
    (hatt : e.attempts < e.maxAttempts) (hcode : hashCode code = e.codeHash) :
    verifyOTP store now recipient code vid =
      (OTPResult.success
        { id := vid, recipient := recipient, verifiedAt := now, createdAt := e.createdAt },
       mremove recipient store) := by
  simp [verifyOTP, hl, hexp, Nat.not_le.mpr hatt, hcode]

/-- Claim C7: for a live challenge with `maxAttempts = 3` and `attempts = 0`:
each wrong code increments `attempts` and returns Invalid with the attempts
remaining (2, then 1, then 0), never deleting the challenge; after the three
wrong codes the challenge is exhausted — the next attempt, with any code,
fails with AttemptsExceeded and deletes it; and a correct code submitted on
attempt 2 of 3 succeeds, deletes the challenge and returns the verification
record carrying the recipient and `verifiedAt`. -/
theorem claim_C7_otp_attempt_flow :
    ∀ (store : List (String × OTPEntry)) (now : Nat)
      (recipient c0 w1 w2 w3 cx vid1 vid2 vid3 vid4 vid5 : String) (e : OTPEntry),
      mlookup recipient store = some e →
      e.attempts = 0 → e.maxAttempts = 3 → ¬ e.expiresAt < now →
      e.codeHash = hashCode c0 →
      w1 ≠ c0 → w2 ≠ c0 → w3 ≠ c0 →
      (verifyOTP store now recipient w1 vid1).1 = OTPResult.invalid 2 ∧
      mlookup recipient (verifyOTP store now recipient w1 vid1).2 =
        some { e with attempts := 1 } ∧
      (verifyOTP (verifyOTP store now recipient w1 vid1).2 now recipient w2 vid2).1 =
        OTPResult.invalid 1 ∧
      mlookup recipient
          (verifyOTP (verifyOTP store now recipient w1 vid1).2 now recipient w2 vid2).2 =
        some { e with attempts := 2 } ∧
      (verifyOTP (verifyOTP (verifyOTP store now recipient w1 vid1).2 now recipient w2
          vid2).2 now recipient w3 vid3).1 = OTPResult.invalid 0 ∧
      mlookup recipient (verifyOTP (verifyOTP (verifyOTP store now recipient w1 vid1).2 now
          recipient w2 vid2).2 now recipient w3 vid3).2 = some { e with attempts := 3 } ∧
      (verifyOTP (verifyOTP (verifyOTP (verifyOTP store now recipient w1 vid1).2 now
          recipient w2 vid2).2 now recipient w3 vid3).2 now recipient cx vid4).1 =
        OTPResult.attemptsExceeded ∧
      mlookup recipient (verifyOTP (verifyOTP (verifyOTP (verifyOTP store now recipient w1
          vid1).2 now recipient w2 vid2).2 now recipient w3 vid3).2 now recipient cx
          vid4).2 = none ∧
      (verifyOTP (verifyOTP store now recipient w1 vid1).2 now recipient c0 vid5).1 =
        OTPResult.success
          { id := vid5, recipient := recipient, verifiedAt := now,
            createdAt := e.createdAt } ∧
      mlookup recipient
          (verifyOTP (verifyOTP store now recipient w1 vid1).2 now recipient c0 vid5).2 =
        none := by
  intro store now recipient c0 w1 w2 w3 cx vid1 vid2 vid3 vid4 vid5 e hl h0 h3 hexp hch
    hw1 hw2 hw3
  have hcw : ∀ w, w ≠ c0 → hashCode w ≠ e.codeHash := by
    intro w hw hcon
    rw [hch] at hcon
    exact hw (by simpa [hashCode] using hcon)
  have hstep1 := verifyOTP_wrong store now recipient w1 vid1 e hl hexp (by omega)
    (hcw w1 hw1)
  have he1 : ({ e with attempts := e.attempts + 1 } : OTPEntry) = { e with attempts := 1 } := by
    rw [h0]
  rw [he1] at hstep1
  have hl1 : mlookup recipient (minsert recipient { e with attempts := 1 } store) =
      some { e with attempts := 1 } := mlookup_minsert_self recipient _ store
  have hstep2 := verifyOTP_wrong (minsert recipient { e with attempts := 1 } store) now
    recipient w2 vid2 { e with attempts := 1 } hl1 hexp
    (show (1 : Nat) < e.maxAttempts by omega) (hcw w2 hw2)
  have he2 : ({ e with attempts := 1 } : OTPEntry).attempts + 1 = 2 := rfl
  simp only [he2] at hstep2
  have hl2 : mlookup recipient
      (minsert recipient { e with attempts := 2 } (minsert recipient { e with attempts := 1 }
        store)) = some { e with attempts := 2 } := mlookup_minsert_self recipient _ _
  have hstep3 := verifyOTP_wrong
    (minsert recipient { e with attempts := 2 } (minsert recipient { e with attempts := 1 }
      store)) now recipient w3 vid3 { e with attempts := 2 } hl2 hexp
    (show (2 : Nat) < e.maxAttempts by omega) (hcw w3 hw3)
  have he3 : ({ e with attempts := 2 } : OTPEntry).attempts + 1 = 3 := rfl
  simp only [he3] at hstep3
  have hl3 : mlookup recipient
      (minsert recipient { e with attempts := 3 } (minsert recipient { e with attempts := 2 }
        (minsert recipient { e with attempts := 1 } store))) =
      some { e with attempts := 3 } := mlookup_minsert_self recipient _ _
  have hstep4 := verifyOTP_exceeded
    (minsert recipient { e with attempts := 3 } (minsert recipient { e with attempts := 2 }
      (minsert recipient { e with attempts := 1 } store))) now recipient cx vid4
    { e with attempts := 3 } hl3 hexp (show e.maxAttempts ≤ 3 by omega)
  have hstepOk := verifyOTP_correct (minsert recipient { e with attempts := 1 } store) now
    recipient c0 vid5 { e with attempts := 1 } hl1 hexp
    (show (1 : Nat) < e.maxAttempts by omega) hch.symm
  refine ⟨?_, ?_, ?_, ?_, ?_, ?_, ?_, ?_, ?_, ?_⟩
  · rw [hstep1]
    show OTPResult.invalid (e.maxAttempts - (e.attempts + 1)) = OTPResult.invalid 2
    rw [h0, h3]
  · rw [hstep1]
    exact hl1
  · rw [hstep1, hstep2]
    show OTPResult.invalid (e.maxAttempts - 2) = OTPResult.invalid 1
    rw [h3]
  · rw [hstep1, hstep2]
    exact hl2
  · rw [hstep1, hstep2, hstep3]
    show OTPResult.invalid (e.maxAttempts - 3) = OTPResult.invalid 0
    rw [h3]
  · rw [hstep1, hstep2, hstep3]
    exact hl3
  · rw [hstep1, hstep2, hstep3, hstep4]
  · rw [hstep1, hstep2, hstep3, hstep4]
    exact mlookup_mremove_self recipient _
  · rw [hstep1, hstepOk]
  · rw [hstep1, hstepOk]
    exact mlookup_mremove_self recipient _

/-- Claim C7 witness: the attempt flow evaluated on a concrete challenge
issued by `requestOTP` with `maxAttempts = 3`. -/
theorem claim_C7_witness :
    (verifyOTP (requestOTP [] "a@example.com" "123456" "ch1" 10 10 3).1 500 "a@example.com"
        "000000" "v1").1 = OTPResult.invalid 2 ∧
    (verifyOTP (verifyOTP (requestOTP [] "a@example.com" "123456" "ch1" 10 10 3).1 500
        "a@example.com" "000000" "v1").2 500 "a@example.com" "123456" "v5").1 =
      OTPResult.success
        { id := "v5", recipient := "a@example.com", verifiedAt := 500, createdAt := 10 } :=
  ⟨(claim_C7_otp_attempt_flow (requestOTP [] "a@example.com" "123456" "ch1" 10 10 3).1 500
      "a@example.com" "123456" "000000" "000001" "000002" "111111" "v1" "v2" "v3" "v4" "v5"
      (requestOTP [] "a@example.com" "123456" "ch1" 10 10 3).2 rfl rfl rfl (by decide) rfl
      (by decide) (by decide) (by decide)).1,
   (claim_C7_otp_attempt_flow (requestOTP [] "a@example.com" "123456" "ch1" 10 10 3).1 500
      "a@example.com" "123456" "000000" "000001" "000002" "111111" "v1" "v2" "v3" "v4" "v5"
      (requestOTP [] "a@example.com" "123456" "ch1" 10 10 3).2 rfl rfl rfl (by decide) rfl
      (by decide) (by decide) (by decide)).2.2.2.2.2.2.2.2.1⟩

/-! ## Token service — JWT tokenized downloads

The JWT HMAC signature is modelled as an unforgeable symbolic term of the
secret and the payload; `jsonwebtoken` error classes map to the `JwtError`
constructors.  JavaScript values reaching `parseExpiresIn` are modelled by
`JsVal` with the JS truthiness rules. -/

/-- A JavaScript value as far as `expiresIn` handling observes it. -/
inductive JsVal where
  | num (n : Nat)
  | str (s : String)
  | boolean (b : Bool)
  | nullv
  | undef
  | obj (tag : String)
deriving DecidableEq, Repr

/-- JavaScript falsiness of a `JsVal`. -/
def jsFalsy : JsVal → Bool
  | JsVal.num n => decide (n = 0)
  | JsVal.str s => decide (s = "")
  | JsVal.boolean b => !b
  | JsVal.nullv => true
  | JsVal.undef => true
  | JsVal.obj _ => false

/-- JavaScript `v || dflt`. -/
def jsOr (v dflt : JsVal) : JsVal := if jsFalsy v then dflt else v

/-- JavaScript `v || dflt` on an optional number (`options.maxDownloads || 1`). -/
def jsNatOr (v : Option Nat) (dflt : Nat) : Nat :=
  match v with
  | none => dflt
  | some n => if n = 0 then dflt else n

/-- The `units` table of `parseExpiresIn`. -/
def unitSeconds : Char → Option Nat
  | 's' => some 1
  | 'm' => some 60
  | 'h' => some 3600
  | 'd' => some 86400
  | _ => none

/-- Decimal value of a digit list (`parseInt` on the matched digits). -/
def natOfDigits (cs : List Char) : Nat :=
  cs.foldl (fun acc c => acc * 10 + (c.toNat - 48)) 0

/-- The RegExp `(\d+)([smhd])` anchored on both sides: one or more digits
followed by one unit character; `none` when the string does not match. -/
def matchDuration (s : String) : Option Nat :=
  let cs := s.data
  match cs.getLast? with
  | none => none
  | some u =>
    let digits := cs.dropLast
    if digits.isEmpty then none
    else if digits.all Char.isDigit then
      (unitSeconds u).map fun m => natOfDigits digits * m
    else none

/-- `parseExpiresIn(expiresIn)`: a number passes through, a matching duration
string converts, any other string falls back to 3600 seconds; a value that is
neither number nor string has no `.match` method and throws a `TypeError`. -/
def parseExpiresIn : JsVal → Except String Nat
  | JsVal.num n => Except.ok n
  | JsVal.str s =>
    match matchDuration s with
    | some v => Except.ok v
    | none => Except.ok 3600
  | _ => Except.error "TypeError: expiresIn.match is not a function"

/-- `securityConfig.getJWTConfig()` fields used by the token service. -/
structure JWTConfig where
  secret : String
  expiresIn : String
  issuer : String
  audience : String
deriving DecidableEq, Repr

/-- The source defaults: `expiresIn: '1h'`, fixed issuer and audience. -/
def jwtConfig (secret : String) : JWTConfig :=
  { secret := secret, expiresIn := "1h", issuer := "kvkk-consent-system",
    audience := "kvkk-download-service" }

/-- The signed JWT payload of a download token. -/
structure JwtPayload where
  jti : String
  sub : String
  iat : Nat
  exp : Nat
  iss : String
  aud : String
  purpose : String
  ip : Option String
  userAgent : Option String
  maxDownloads : Nat
  downloadCount : Nat
deriving DecidableEq, Repr

/-- The HMAC-SHA256 signature, an unforgeable symbolic term. -/
inductive JwtSig where
  | hs256 (secret : String) (payload : JwtPayload)
deriving DecidableEq, Repr

/-- A signed token string: its decoded payload and its signature. -/
structure SignedJwt where
  payload : JwtPayload
  sig : JwtSig
deriving DecidableEq, Repr

/-- `jwt.sign(payload, secret)`. -/
def jwtSign (secret : String) (p : JwtPayload) : SignedJwt :=
  { payload := p, sig := JwtSig.hs256 secret p }

/-- `jsonwebtoken` verification failures (`TokenExpiredError` /
`JsonWebTokenError`). -/
inductive JwtError where
  | expired
  | invalid
deriving DecidableEq, Repr

/-- `jwt.verify(token, secret, \x7balgorithms, issuer, audience\x7d)`. -/
def jwtVerify (t : SignedJwt) (secret iss aud : String) (now : Nat) :
    Except JwtError JwtPayload :=
  if t.sig ≠ JwtSig.hs256 secret t.payload then Except.error JwtError.invalid
  else if t.payload.exp ≤ now then Except.error JwtError.expired
  else if t.payload.iss ≠ iss ∨ t.payload.aud ≠ aud then Except.error JwtError.invalid
  else Except.ok t.payload

/-- A server-side `activeTokens` record. -/
structure TokenData where
  submissionId : String
  createdAt : Nat
  expiresAt : Nat
  downloadCount : Nat
  maxDownloads : Nat
  ip : Option String
  userAgent : Option String
  lastDownloadAt : Option Nat
  lastDownloadIp : Option String
deriving DecidableEq, Repr

/-- The options object of `generateDownloadToken`. -/
structure TokenOptions where
  expiresIn : JsVal
  ip : Option String
  userAgent : Option String
  maxDownloads : Option Nat
deriving DecidableEq, Repr

/-- The success value of `generateDownloadToken`. -/
structure GenResult where
  token : SignedJwt
  tokenId : String
  expiresAt : Nat
  maxDownloads : Nat
deriving DecidableEq, Repr

/-- `generateDownloadToken(submissionId, options)`: parse the expiry
(`options.expiresIn || config.expiresIn`), sign the payload, and track a
server-side record; a `parseExpiresIn` throw is rewrapped by the catch as the
generic generation failure. -/
def generateDownloadToken (activeTokens : List (String × TokenData)) (config : JWTConfig)
    (submissionId tokenId : String) (opts : TokenOptions) (now : Nat) :
    Except String (GenResult × List (String × TokenData)) :=
  match parseExpiresIn (jsOr opts.expiresIn (JsVal.str config.expiresIn)) with
  | Except.error _ => Except.error "Failed to generate secure download token"
  | Except.ok secs =>
    let maxD := jsNatOr opts.maxDownloads 1
    let payload : JwtPayload :=
      { jti := tokenId, sub := submissionId, iat := now, exp := now + secs,
        iss := config.issuer, aud := config.audience, purpose := "download",
        ip := opts.ip, userAgent := opts.userAgent, maxDownloads := maxD,
        downloadCount := 0 }
    let td : TokenData :=
      { submissionId := submissionId, createdAt := now, expiresAt := now + secs,
        downloadCount := 0, maxDownloads := maxD, ip := opts.ip,
        userAgent := opts.userAgent, lastDownloadAt := none, lastDownloadIp := none }
    Except.ok
      ({ token := jwtSign config.secret payload, tokenId := tokenId,
         expiresAt := now + secs, maxDownloads := maxD },
       minsert tokenId td activeTokens)

/-- The distinct internal failures of `verifyDownloadToken`. -/
inductive TokenErr where
  | jwtExpired
  | jwtInvalid
  | notFoundOrRevoked
  | limitExceeded
deriving DecidableEq, Repr

/-- The success value of `verifyDownloadToken`. -/
structure TokenVerifyOk where
  submissionId : String
  tokenId : String
  remainingDownloads : Nat
deriving DecidableEq, Repr

/-- The try-block body of `verifyDownloadToken(token)`: JWT signature and
expiry first, then the server-side record existence, then the download limit
(`downloadCount >= maxDownloads` throws `Download limit exceeded`). -/
def verifyDownloadTokenSteps (activeTokens : List (String × TokenData)) (config : JWTConfig)
    (t : SignedJwt) (now : Nat) : Except TokenErr TokenVerifyOk :=
  match jwtVerify t config.secret config.issuer config.audience now with
  | Except.error JwtError.expired => Except.error TokenErr.jwtExpired
  | Except.error JwtError.invalid => Except.error TokenErr.jwtInvalid
  | Except.ok payload =>
    match mlookup payload.jti activeTokens with
    | none => Except.error TokenErr.notFoundOrRevoked
    | some td =>
      if td.maxDownloads ≤ td.downloadCount then Except.error TokenErr.limitExceeded
      else
        Except.ok
          { submissionId := payload.sub, tokenId := payload.jti,
            remainingDownloads := td.maxDownloads - td.downloadCount }

/-- `verifyDownloadToken(token)` with its catch-block error mapping: JWT
expiry and signature failures keep distinct messages, every other internal
throw becomes `Token validation failed`. -/
def verifyDownloadToken (activeTokens : List (String × TokenData)) (config : JWTConfig)
    (t : SignedJwt) (now : Nat) : Except String TokenVerifyOk :=
  match verifyDownloadTokenSteps activeTokens config t now with
  | Except.ok r => Except.ok r
  | Except.error TokenErr.jwtExpired => Except.error "Download link has expired"
  | Except.error TokenErr.jwtInvalid => Except.error "Invalid download token"
  | Except.error _ => Except.error "Token validation failed"

/-- The success value of `recordDownload`. -/
structure RecordOk where
  downloadCount : Nat
  remainingDownloads : Nat
deriving DecidableEq, Repr

/-- `recordDownload(tokenId)`: increment the server-side counter in place;
when the limit is reached, schedule the record for revocation via `setTimeout`
(returned as the pending-revocation list) instead of deleting it now. -/
def recordDownload (activeTokens : List (String × TokenData)) (tokenId : String)
    (ctxIp : Option String) (now : Nat) :
    Except String (RecordOk × List (String × TokenData) × List String) :=
  match mlookup tokenId activeTokens with
  | none => Except.error "Failed to record download"
  | some td =>
    let td2 : TokenData :=
      { td with
        downloadCount := td.downloadCount + 1,
        lastDownloadAt := some now,
        lastDownloadIp := ctxIp }
    let scheduled := if td2.maxDownloads ≤ td2.downloadCount then [tokenId] else []
    Except.ok
      ({ downloadCount := td2.downloadCount,
         remainingDownloads := td2.maxDownloads - td2.downloadCount },
       minsert tokenId td2 activeTokens, scheduled)

/-- `revokeToken(tokenId)`: the deferred `setTimeout` body. -/
def revokeToken (activeTokens : List (String × TokenData)) (tokenId : String) :
    List (String × TokenData) :=
  mremove tokenId activeTokens

/-- The payload signed by `generateDownloadToken`. -/
def issuedPayload (config : JWTConfig) (submissionId tokenId : String) (opts : TokenOptions)
    (now secs maxD : Nat) : JwtPayload :=
  { jti := tokenId, sub := submissionId, iat := now, exp := now + secs,
    iss := config.issuer, aud := config.audience, purpose := "download",
    ip := opts.ip, userAgent := opts.userAgent, maxDownloads := maxD, downloadCount := 0 }

/-- The server-side record stored by `generateDownloadToken`. -/
def issuedTokenData (submissionId : String) (opts : TokenOptions) (now secs maxD : Nat) :
    TokenData :=
  { submissionId := submissionId, createdAt := now, expiresAt := now + secs,
    downloadCount := 0, maxDownloads := maxD, ip := opts.ip, userAgent := opts.userAgent,
    lastDownloadAt := none, lastDownloadIp := none }

/-- The server-side record after the first recorded download. -/
def redeemedTokenData (submissionId : String) (opts : TokenOptions) (now secs maxD : Nat) :
    TokenData :=
  { issuedTokenData submissionId opts now secs maxD with
    downloadCount := 1,
    lastDownloadAt := some now,
    lastDownloadIp := none }

/-- Claim C6: a token issued with `maxDownloads = 1` redeems exactly once — the
first verify-then-record sequence succeeds, reaching the limit schedules the
server-side record for asynchronous removal (pending-revocation list) while
the record itself survives the redemption, and a second redemption of the same
signed token string fails with the download-limit error while the record still
exists, or with the not-found error once the deferred revocation has fired. -/
theorem claim_C6_single_use_token_flow :
    ∀ (activeTokens : List (String × TokenData)) (config : JWTConfig)
      (submissionId tokenId : String) (opts : TokenOptions) (now secs : Nat),
      opts.maxDownloads = some 1 →
      parseExpiresIn (jsOr opts.expiresIn (JsVal.str config.expiresIn)) = Except.ok secs →
      0 < secs →
      generateDownloadToken activeTokens config submissionId tokenId opts now =
        Except.ok
          ({ token := jwtSign config.secret
               (issuedPayload config submissionId tokenId opts now secs 1),
             tokenId := tokenId, expiresAt := now + secs, maxDownloads := 1 },
           minsert tokenId (issuedTokenData submissionId opts now secs 1) activeTokens) ∧
      verifyDownloadTokenSteps
          (minsert tokenId (issuedTokenData submissionId opts now secs 1) activeTokens)
          config (jwtSign config.secret
            (issuedPayload config submissionId tokenId opts now secs 1)) now =
        Except.ok
          { submissionId := submissionId, tokenId := tokenId, remainingDownloads := 1 } ∧
      recordDownload
          (minsert tokenId (issuedTokenData submissionId opts now secs 1) activeTokens)
          tokenId none now =
        Except.ok
          ({ downloadCount := 1, remainingDownloads := 0 },
           minsert tokenId (redeemedTokenData submissionId opts now secs 1)
             (minsert tokenId (issuedTokenData submissionId opts now secs 1) activeTokens),
           [tokenId]) ∧
      mlookup tokenId
          (minsert tokenId (redeemedTokenData submissionId opts now secs 1)
            (minsert tokenId (issuedTokenData submissionId opts now secs 1) activeTokens)) =
        some (redeemedTokenData submissionId opts now secs 1) ∧
      verifyDownloadTokenSteps
          (minsert tokenId (redeemedTokenData submissionId opts now secs 1)
            (minsert tokenId (issuedTokenData submissionId opts now secs 1) activeTokens))
          config (jwtSign config.secret
            (issuedPayload config submissionId tokenId opts now secs 1)) now =
        Except.error TokenErr.limitExceeded ∧
      verifyDownloadToken
          (minsert tokenId (redeemedTokenData submissionId opts now secs 1)
            (minsert tokenId (issuedTokenData submissionId opts now secs 1) activeTokens))
          config (jwtSign config.secret
            (issuedPayload config submissionId tokenId opts now secs 1)) now =
        Except.error "Token validation failed" ∧
      verifyDownloadTokenSteps
          (revokeToken
            (minsert tokenId (redeemedTokenData submissionId opts now secs 1)
              (minsert tokenId (issuedTokenData submissionId opts now secs 1) activeTokens))
            tokenId)
          config (jwtSign config.secret
            (issuedPayload config submissionId tokenId opts now secs 1)) now =
        Except.error TokenErr.notFoundOrRevoked := by
  intro activeTokens config submissionId tokenId opts now secs hm hp hs
  have hjwt : jwtVerify
      (jwtSign config.secret (issuedPayload config submissionId tokenId opts now secs 1))
      config.secret config.issuer config.audience now =
      Except.ok (issuedPayload config submissionId tokenId opts now secs 1) := by
    have hexp : ¬ (now + secs ≤ now) := by omega
    simp [jwtVerify, jwtSign, issuedPayload, hexp]
  have hjti : (issuedPayload config submissionId tokenId opts now secs 1).jti = tokenId := rfl
  have hsteps1 : verifyDownloadTokenSteps
      (minsert tokenId (issuedTokenData submissionId opts now secs 1) activeTokens) config
      (jwtSign config.secret (issuedPayload config submissionId tokenId opts now secs 1))
      now =
      Except.ok
        { submissionId := submissionId, tokenId := tokenId, remainingDownloads := 1 } := by
    simp only [verifyDownloadTokenSteps, hjwt, hjti, mlookup_minsert_self]
    simp [issuedTokenData, issuedPayload]
  have hsteps2 : verifyDownloadTokenSteps
      (minsert tokenId (redeemedTokenData submissionId opts now secs 1)
        (minsert tokenId (issuedTokenData submissionId opts now secs 1) activeTokens)) config
      (jwtSign config.secret (issuedPayload config submissionId tokenId opts now secs 1))
      now = Except.error TokenErr.limitExceeded := by
    simp only [verifyDownloadTokenSteps, hjwt, hjti, mlookup_minsert_self]
    simp [redeemedTokenData, issuedTokenData]
  refine ⟨?_, hsteps1, ?_, mlookup_minsert_self tokenId _ _, hsteps2, ?_, ?_⟩
  · simp [generateDownloadToken, hp, hm, jsNatOr, issuedPayload, issuedTokenData]
  · simp only [recordDownload, mlookup_minsert_self]
    simp [issuedTokenData, redeemedTokenData]
  · simp [verifyDownloadToken, hsteps2]
  · simp only [verifyDownloadTokenSteps, hjwt, hjti, revokeToken, mlookup_mremove_self]

/-- Claim C6 witness: the single-use flow at a concrete issued token. -/
theorem claim_C6_witness :
    verifyDownloadTokenSteps
        (minsert "t1"
          (issuedTokenData "s1"
            { expiresIn := JsVal.str "1h", ip := none, userAgent := none,
              maxDownloads := some 1 } 0 3600 1) [])
        (jwtConfig "sec")
        (jwtSign "sec"
          (issuedPayload (jwtConfig "sec") "s1" "t1"
            { expiresIn := JsVal.str "1h", ip := none, userAgent := none,
              maxDownloads := some 1 } 0 3600 1)) 0 =
      Except.ok { submissionId := "s1", tokenId := "t1", remainingDownloads := 1 } ∧
    verifyDownloadTokenSteps
        (minsert "t1"
          (redeemedTokenData "s1"
            { expiresIn := JsVal.str "1h", ip := none, userAgent := none,
              maxDownloads := some 1 } 0 3600 1)
          (minsert "t1"
            (issuedTokenData "s1"
              { expiresIn := JsVal.str "1h", ip := none, userAgent := none,
                maxDownloads := some 1 } 0 3600 1) []))
        (jwtConfig "sec")
        (jwtSign "sec"
          (issuedPayload (jwtConfig "sec") "s1" "t1"
            { expiresIn := JsVal.str "1h", ip := none, userAgent := none,
              maxDownloads := some 1 } 0 3600 1)) 0 =
      Except.error TokenErr.limitExceeded :=
  ⟨(claim_C6_single_use_token_flow [] (jwtConfig "sec") "s1" "t1"
      { expiresIn := JsVal.str "1h", ip := none, userAgent := none, maxDownloads := some 1 }
      0 3600 rfl rfl (by decide)).2.1,
   (claim_C6_single_use_token_flow [] (jwtConfig "sec") "s1" "t1"
      { expiresIn := JsVal.str "1h", ip := none, userAgent := none, maxDownloads := some 1 }
      0 3600 rfl rfl (by decide)).2.2.2.2.1⟩

/-- Claim C10 counterexample: an `expiresIn` that is neither a number nor a
string — here the boolean `true`, which is truthy so it is not replaced by the
config default — makes `parseExpiresIn` throw a `TypeError` (`true.match` is
not a function) instead of returning 3600, and `generateDownloadToken`
consequently rejects instead of silently issuing a one-hour token. -/
theorem claim_C10_counterexample :
    parseExpiresIn (JsVal.boolean true) =
      Except.error "TypeError: expiresIn.match is not a function" ∧
    generateDownloadToken [] (jwtConfig "secret") "s1" "t1"
        { expiresIn := JsVal.boolean true, ip := none, userAgent := none,
          maxDownloads := some 1 } 0 =
      Except.error "Failed to generate secure download token" :=
  ⟨rfl, rfl⟩

/-- Claim C10 (amended): for every STRING `expiresIn` not of the form
`<digits><s|m|h|d>`, `parseExpiresIn` returns 3600 seconds and
`generateDownloadToken` silently issues a token that expires in one hour (the
empty string is falsy and falls back to the config default `'1h'`, which is
also one hour); an `expiresIn` that is neither a number nor a string instead
throws inside `parseExpiresIn` and the generation is rejected (see
`claim_C10_counterexample`). -/
theorem claim_C10_string_fallback_amended :
    ∀ s : String, matchDuration s = none →
      parseExpiresIn (JsVal.str s) = Except.ok 3600 ∧
      ∀ (activeTokens : List (String × TokenData)) (secret submissionId tokenId : String)
        (opts : TokenOptions) (now : Nat),
        opts.expiresIn = JsVal.str s →
        (generateDownloadToken activeTokens (jwtConfig secret) submissionId tokenId opts
            now).toOption.map (fun r => r.1.expiresAt) = some (now + 3600) := by
  intro s hs
  have hparse : parseExpiresIn (JsVal.str s) = Except.ok 3600 := by
    simp [parseExpiresIn, hs]
  refine ⟨hparse, ?_⟩
  intro activeTokens secret submissionId tokenId opts now hopt
  by_cases hempty : s = ""
  · have hor : jsOr opts.expiresIn (JsVal.str (jwtConfig secret).expiresIn) =
        JsVal.str "1h" := by
      simp [jsOr, jsFalsy, hopt, hempty, jwtConfig]
    have hp2 : parseExpiresIn (JsVal.str "1h") = Except.ok 3600 := rfl
    simp [generateDownloadToken, hor, hp2, Except.toOption]
  · have hor : jsOr opts.expiresIn (JsVal.str (jwtConfig secret).expiresIn) =
        JsVal.str s := by
      simp [jsOr, jsFalsy, hopt, hempty]
    simp [generateDownloadToken, hor, hparse, Except.toOption]

/-- Claim C10 witness: the string `"soon"` does not match the duration form,
parses to 3600 and yields a token expiring in one hour. -/
theorem claim_C10_witness :
    matchDuration "soon" = none ∧
    parseExpiresIn (JsVal.str "soon") = Except.ok 3600 ∧
    (generateDownloadToken [] (jwtConfig "secret") "s1" "t1"
        { expiresIn := JsVal.str "soon", ip := none, userAgent := none,
          maxDownloads := some 1 } 0).toOption.map (fun r => r.1.expiresAt) = some 3600 :=
  ⟨rfl, (claim_C10_string_fallback_amended "soon" rfl).1,
   by
     simpa using (claim_C10_string_fallback_amended "soon" rfl).2 [] "secret" "s1" "t1"
       ({ expiresIn := JsVal.str "soon", ip := none, userAgent := none,
          maxDownloads := some 1 } : TokenOptions) 0 rfl⟩

/-! ## Timestamp service — `src/backend/services/timestampService.js`

The returned JavaScript object is modelled as its field list (name, value);
the simulated TSA token digest and the local nonce (`randomBytes(16)`) are
passed in explicitly. -/

/-- `getTimestamp(proofInput)`: with a configured `TSA_URL` the simulated TSA
record `\x7btype, url, createdAt, token\x7d`; otherwise the local fallback
`\x7btype, createdAt, nonce\x7d`.  No other field is ever attached. -/
def getTimestamp (tsaUrl : Option String) (createdAt token nonce : String) :
    List (String × String) :=
  match tsaUrl with
  | some url => [("type", "tsa"), ("url", url), ("createdAt", createdAt), ("token", token)]
  | none => [("type", "local"), ("createdAt", createdAt), ("nonce", nonce)]

/-- Claim C4 counterexample: the local fallback record produced when no time
authority is configured carries no `degraded` field at all — in particular no
`degraded = true` marker; its only marker is `type = 'local'`. -/
theorem claim_C4_counterexample :
    mlookup "degraded" (getTimestamp none "2025-01-01T00:00:00.000Z" "tok" "abc123") =
      none ∧
    mlookup "type" (getTimestamp none "2025-01-01T00:00:00.000Z" "tok" "abc123") =
      some "local" :=
  ⟨rfl, rfl⟩

/-- Claim C4 (amended): whenever the time authority is not configured, the
produced timestamp is the local fallback marked by `type = 'local'` — and so
distinguishable from an authority record, which is marked `type = 'tsa'` — but
it carries no `degraded = true` field (the marker named by the original claim
does not exist, see `claim_C4_counterexample`). -/
theorem claim_C4_fallback_marker_amended :
    ∀ createdAt token nonce : String,
      mlookup "type" (getTimestamp none createdAt token nonce) = some "local" ∧
      mlookup "degraded" (getTimestamp none createdAt token nonce) = none ∧
      ∀ url, mlookup "type" (getTimestamp (some url) createdAt token nonce) = some "tsa" := by
  intro createdAt token nonce
  exact ⟨rfl, rfl, fun url => rfl⟩

/-! ## Evidence bundle service — `src/backend/services/evidenceBundleService.js` -/

/-- `computePdfHash(pdfBuffer)`: SHA-256 hex of the artifact bytes. -/
def computePdfHash (pdfBuffer : Bytes) : Sha := Sha.bytes pdfBuffer

/-- The assembled evidence bundle (`bundle` object plus its `hashChain`
anchor fields). -/
structure EvidenceBundle where
  submissionId : String
  createdAt : Nat
  pdfHash : Sha
  kvkkVersion : String
  otpVerification : Option (String × Nat)
  tsCreatedAt : String
  chainIndex : Nat
  chainHash : ChainHash
  chainPrevHash : Option ChainHash
  anchoredAt : String
deriving DecidableEq, Repr

/-- The state produced by `assembleAndStore`. -/
structure AssembleResult where
  storage : StorageState
  chain : List ChainEntry
  anchor : ChainEntry
  bundle : EvidenceBundle
deriving DecidableEq, Repr

/-- `assembleAndStore(formData, pdfBuffer, evidenceInput)`: store the base
submission, compute the pdf hash, append the consent-evidence anchor carrying
the submission id to the hash chain, build the bundle with the anchor fields,
and persist the encrypted bundle (opaque `bundleEnc`, encrypted under the
distinct `evidence:<id>` context) next to the metadata. -/
def assembleAndStore (st : StorageState) (chain : List ChainEntry) (formDataEnc : String)
    (pdfBuffer : Bytes) (otpEv : Option (String × Nat)) (submissionId : String)
    (now retentionDays : Nat) (kvkkVersion : String) (tsCreatedAt anchorTs : String)
    (bundleEnc : String) : AssembleResult :=
  let stored := storeSubmission st submissionId formDataEnc pdfBuffer now retentionDays
  let pdfHash := computePdfHash pdfBuffer
  let anchorData := ChainData.consentEvidence submissionId pdfHash otpEv kvkkVersion
    tsCreatedAt
  let entry := appendEntry chain anchorTs anchorData
  let st2 := stored.1
  { storage :=
      { submissions := st2.submissions, pdfs := st2.pdfs, metadata := st2.metadata,
        evidence := minsert submissionId bundleEnc st2.evidence },
    chain := append chain anchorTs anchorData,
    anchor := entry,
    bundle :=
      { submissionId := submissionId, createdAt := now, pdfHash := pdfHash,
        kvkkVersion := kvkkVersion, otpVerification := otpEv, tsCreatedAt := tsCreatedAt,
        chainIndex := entry.index, chainHash := entry.hash, chainPrevHash := entry.prevHash,
        anchoredAt := entry.timestamp } }

/-- The submission id recorded by a chain payload, when it is an anchor. -/
def chainDataSubmissionId : ChainData → Option String
  | ChainData.consentEvidence sid _ _ _ _ => some sid
  | _ => none

/-- Claim C8: storing a submission with artifact bytes `B` records
`SHA256(B)` as the metadata hash; the evidence bundle assembled for that
submission carries the same `SHA256(B)` as its artifact hash; and the
hash-chain anchor appended during assembly records that submission id (and is
exactly the entry appended to the chain). -/
theorem claim_C8_artifact_hash_consistency :
    ∀ (st : StorageState) (chain : List ChainEntry) (formDataEnc : String)
      (pdfBuffer : Bytes) (otpEv : Option (String × Nat)) (submissionId : String)
      (now retentionDays : Nat) (kvkkVersion : String) (tsCreatedAt anchorTs : String)
      (bundleEnc : String),
      (mlookup submissionId
          (assembleAndStore st chain formDataEnc pdfBuffer otpEv submissionId now
            retentionDays kvkkVersion tsCreatedAt anchorTs bundleEnc).storage.metadata).map
          (fun md => md.hash) = some (Sha.bytes pdfBuffer) ∧
      (assembleAndStore st chain formDataEnc pdfBuffer otpEv submissionId now retentionDays
          kvkkVersion tsCreatedAt anchorTs bundleEnc).bundle.pdfHash =
        Sha.bytes pdfBuffer ∧
      chainDataSubmissionId
          (assembleAndStore st chain formDataEnc pdfBuffer otpEv submissionId now
            retentionDays kvkkVersion tsCreatedAt anchorTs bundleEnc).anchor.data =
        some submissionId ∧
      (assembleAndStore st chain formDataEnc pdfBuffer otpEv submissionId now retentionDays
          kvkkVersion tsCreatedAt anchorTs bundleEnc).chain =
        chain ++
          [(assembleAndStore st chain formDataEnc pdfBuffer otpEv submissionId now
            retentionDays kvkkVersion tsCreatedAt anchorTs bundleEnc).anchor] := by
  intro st chain formDataEnc pdfBuffer otpEv submissionId now retentionDays kvkkVersion
    tsCreatedAt anchorTs bundleEnc
  refine ⟨?_, rfl, rfl, rfl⟩
  have hl : mlookup submissionId
      (assembleAndStore st chain formDataEnc pdfBuffer otpEv submissionId now retentionDays
        kvkkVersion tsCreatedAt anchorTs bundleEnc).storage.metadata =
      some
        { id := submissionId, timestamp := now, size := pdfBuffer.length,
          hash := calculateHash pdfBuffer,
          retention :=
            { createdAt := now, expiresAt := calculateExpiryDate now retentionDays,
              retentionDays := retentionDays } } := by
    simp only [assembleAndStore, storeSubmission]
    exact mlookup_minsert_self submissionId _ _
  rw [hl]
  rfl

end KVKK
